import Mathlib

/-!
# go-config: the environment loader (`load.go`)

A shallow embedding of `Load`, `LoadErrors` and `LoadError` of package `config`,
with the parts of the Go standard library that `Load` calls (`strconv.ParseBool`,
`strconv.ParseInt`, `strings.Trim`, `strings.Split`, `strings.Join`).

Conventions of the embedding:

* a Go `string` is a Lean `String` (a sequence of code points; the Go functions
  used here agree on bytes and on code points for valid UTF-8);
* a Go `int` is a Lean `Int`; the only arithmetic on it is bitwise or, which
  cannot overflow, and `ParseInt`, whose 64-bit cut-offs are explicit;
* the process environment is a function from keys to optional values
  (`os.LookupEnv`);
* `errors = append(errors, e)` is `errors ++ [e]`.
-/

set_option autoImplicit false

namespace GoConfig

/-! ## Constants (load.go, lines 10-16) -/

/-- The first constant of the block, at `iota = 0`. -/
def DefaultStringSliceDelimiter : String := ","

/-- `1 << iota` at `iota = 1`. -/
def ErrorLoadPrereqs : Int := ((1 <<< 1 : Nat) : Int)

/-- `1 << iota` at `iota = 2`. -/
def ErrorLoadNotFound : Int := ((1 <<< 2 : Nat) : Int)

/-- `1 << iota` at `iota = 3`. -/
def ErrorLoadInvalidType : Int := ((1 <<< 3 : Nat) : Int)

/-- `1 << iota` at `iota = 4`. -/
def ErrorLoadInvalidValue : Int := ((1 <<< 4 : Nat) : Int)

/-! ## Go standard library functions used by `Load` -/

/-- The error kinds of `strconv.NumError` (`ErrSyntax`, `ErrRange`). -/
inductive NumError where
  | syntaxErr
  | rangeErr
  deriving DecidableEq, Repr

/-- Go `strconv.ParseBool`: the value and the error (`none` is `nil`). -/
def ParseBool (str : String) : Bool × Option NumError :=
  if str = "1" ∨ str = "t" ∨ str = "T" ∨ str = "TRUE" ∨ str = "true" ∨ str = "True" then
    (true, none)
  else if str = "0" ∨ str = "f" ∨ str = "F" ∨ str = "FALSE" ∨ str = "false" ∨ str = "False" then
    (false, none)
  else
    (false, some NumError.syntaxErr)

/-- Go `strconv.IntSize` on the 64-bit targets. -/
def IntSize : Nat := 64

/-- The largest `uint64`. -/
def maxUint64 : Nat := 2 ^ 64 - 1

/-- The digit loop of `strconv.ParseUint` for base 10 and bit size 64, with the
running value `n`: a byte that is not a decimal digit is a syntax error, an
overflow stops the loop at once with `maxVal` and a range error. -/
def parseUintLoop : List Char → Nat → Nat × Option NumError
  | [], n => (n, none)
  | c :: cs, n =>
    if 48 ≤ c.toNat ∧ c.toNat ≤ 57 then
      let d := c.toNat - 48
      if n ≥ maxUint64 / 10 + 1 then (maxUint64, some NumError.rangeErr)
      else
        let n1 := n * 10 + d
        if n1 > maxUint64 then (maxUint64, some NumError.rangeErr)
        else parseUintLoop cs n1
    else (0, some NumError.syntaxErr)

/-- Go `strconv.ParseUint(s, 10, 64)`. -/
def ParseUint (s : List Char) : Nat × Option NumError :=
  if s = [] then (0, some NumError.syntaxErr) else parseUintLoop s 0

/-- Go `strconv.ParseInt(s, 10, 0)`: an optional sign, then `ParseUint`; a value
outside the `IntSize`-bit range is clamped and reported as a range error. -/
def ParseInt (s : String) : Int × Option NumError :=
  if s.data = [] then (0, some NumError.syntaxErr)
  else
    let neg : Bool := s.data.head? = some '-'
    let body : List Char :=
      if s.data.head? = some '+' ∨ s.data.head? = some '-' then s.data.tail else s.data
    let r := ParseUint body
    if r.2 = some NumError.syntaxErr then (0, some NumError.syntaxErr)
    else
      let cutoff : Nat := 2 ^ (IntSize - 1)
      if neg = false ∧ r.1 ≥ cutoff then ((cutoff : Int) - 1, some NumError.rangeErr)
      else if neg = true ∧ r.1 > cutoff then (-(cutoff : Int), some NumError.rangeErr)
      else if neg then (-(r.1 : Int), none) else ((r.1 : Int), none)

/-- The Go conversion `int(v)` of an `int64` on a 64-bit target: wrap into
`[-2^63, 2^63)`. -/
def intOfInt64 (v : Int) : Int := (v + 2 ^ 63) % 2 ^ 64 - 2 ^ 63

/-- Go `strings.Trim(s, cutset)`: drop the leading and the trailing code points
that occur in `cutset`. -/
def Trim (s cutset : String) : String :=
  ⟨((s.data.reverse.dropWhile (fun c => decide (c ∈ cutset.data))).reverse).dropWhile
    (fun c => decide (c ∈ cutset.data))⟩

/-- The scan of `strings.Split` for a non-empty separator: `skip` counts the
characters of a matched separator still to pass over, `cur` is the current
piece, reversed. Matches are taken leftmost first and do not overlap. -/
def splitLoop (sep : List Char) : List Char → Nat → List Char → List String
  | [], _, cur => [⟨cur.reverse⟩]
  | _ :: rest, skip + 1, cur => splitLoop sep rest skip cur
  | c :: rest, 0, cur =>
    if sep.isPrefixOf (c :: rest) then
      ⟨cur.reverse⟩ :: splitLoop sep rest (sep.length - 1) []
    else splitLoop sep rest 0 (c :: cur)

/-- Go `strings.Split(s, sep)`: with an empty separator `s` is exploded into its
code points (no element for the empty string); otherwise `s` is cut at every
occurrence of `sep`. The result is never the nil slice. -/
def Split (s sep : String) : List String :=
  if sep.data = [] then s.data.map (fun c => ⟨[c]⟩)
  else splitLoop sep.data s.data 0 []

/-- Go `strings.Join(elems, sep)`. -/
def Join : List String → String → String
  | [], _ => ""
  | [a], _ => a
  | a :: b :: rest, sep => a ++ sep ++ Join (b :: rest) sep

/-- Go `strings.Contains(s, substr)`, what the tests assert on messages. -/
def Contains (s substr : String) : Prop := substr.data <:+: s.data

instance (s substr : String) : Decidable (Contains s substr) := by
  unfold Contains; infer_instance

/-! ## Errors (load.go, lines 18-53) -/

/-- `type LoadError struct { Code int; Message string }`. -/
structure LoadError where
  Code : Int
  Message : String
  deriving DecidableEq, Repr

/-- `type LoadErrors []LoadError`. -/
abbrev LoadErrors := List LoadError

/-- `LoadErrors.GetCode`: `code := 0; for ... { code |= err.Code }`. -/
def LoadErrors.GetCode (e : LoadErrors) : Int :=
  e.foldl (fun code err => Int.lor code err.Code) 0

/-- The loop `messages = append(messages, err.Message)`. -/
def LoadErrors.messages (e : LoadErrors) : List String :=
  e.foldl (fun messages err => messages ++ [err.Message]) []

/-- `LoadErrors.GetMessage`: `fmt.Sprintf("['%s']", strings.Join(messages, "', '"))`. -/
def LoadErrors.GetMessage (e : LoadErrors) : String :=
  "['" ++ Join (LoadErrors.messages e) "', '" ++ "']"

/-- `LoadErrors.Error`: its own loop over the list, then
`fmt.Sprintf("Load/err[%v]: ['%s']", codes, strings.Join(messages, "', '"))`. -/
def LoadErrors.Error (e : LoadErrors) : String :=
  let r : Int × List String :=
    e.foldl (fun acc err => (Int.lor acc.1 err.Code, acc.2 ++ [err.Message])) (0, [])
  "Load/err[" ++ toString r.1 ++ "]: ['" ++ Join r.2 "', '" ++ "']"

/-- `LoadError.Error`: `fmt.Sprintf("Load/err[%v]: %s", e.Code, e.Message)`. -/
def LoadError.Error (e : LoadError) : String :=
  "Load/err[" ++ toString e.Code ++ "]: " ++ e.Message

/-! ## Fields and the argument of `Load`

The files that declare the field and configuration types, their accessors and
setters are not among the sources; they are modelled below from the way
`Load` and the tests use them. -/

/-- A field value: the eight supported shapes and any other type. `none` is the
nil pointer; for a slice `none` is the nil slice. -/
inductive Value where
  | bool (v : Bool)
  | boolPtr (v : Option Bool)
  | int (v : Int)
  | intPtr (v : Option Int)
  | string (v : String)
  | stringPtr (v : Option String)
  | stringSlice (v : Option (List String))
  | stringSlicePtr (v : Option (Option (List String)))
  | other (v : String)
  deriving DecidableEq, Repr

/-- Modelled from the spec: the field descriptor type is missing. It carries the
declared name (`field.Name`), the rendering of the declared type
(`field.Type.String()`, here `TypeName`), the struct tag as its key/value pairs (`field.Tag`) and
the field's current value in the record. -/
structure StructField where
  Name : String
  TypeName : String
  Tag : List (String × String)
  Value : Value
  deriving DecidableEq, Repr

/-- Go `reflect.StructTag.Lookup`: the value of the first pair with that key. -/
def StructField.TagLookup (f : StructField) (key : String) : Option String :=
  (f.Tag.find? (fun kv => kv.1 = key)).map (fun kv => kv.2)

/-- Modelled from the spec: the constant `StructTagKeyDelimiter` is missing; the
`*[]string` case of `Load` and the tests spell the key `delimiter`. -/
def StructTagKeyDelimiter : String := "delimiter"

/-- Modelled from the spec: the key of the default literal, spelled `default`
in the tests. -/
def StructTagKeyDefault : String := "default"

/-- Modelled from the spec: the key of the environment-key override, spelled
`env` in the tests. -/
def StructTagKeyEnv : String := "env"

/-- Modelled from the spec: upper snake case of a declared name. Every upper-case
letter after the first character starts a new word; words are joined by an
underscore and all letters are upper-cased. -/
def toUpperSnake : List Char → List Char
  | [] => []
  | c :: cs => c.toUpper :: (cs.flatMap (fun d => if d.isUpper then ['_', d] else [d.toUpper]))

/-- Modelled from the spec: `field.GetEnvironmentKey` is missing. The `env` tag
is used verbatim when present, else the upper snake case of the name. -/
def StructField.GetEnvironmentKey (f : StructField) : String :=
  match f.TagLookup StructTagKeyEnv with
  | some key => key
  | none => ⟨toUpperSnake f.Name.data⟩

/-- Modelled from the spec: `field.GetDefaultValue` is missing. It is the
`default` tag, absent (`nil`) when the tag is absent; an empty literal is
present. -/
def StructField.GetDefaultValue (f : StructField) : Option String :=
  f.TagLookup StructTagKeyDefault

/-- Modelled from the spec: the setter `field.SetBool` is missing; it writes the
value into the field. -/
def StructField.SetBool (f : StructField) (v : Bool) : StructField :=
  { f with Value := Value.bool v }

/-- Modelled from the spec: the setter `field.SetBoolPointer` is missing; it
writes a pointer to the value into the field. -/
def StructField.SetBoolPointer (f : StructField) (v : Bool) : StructField :=
  { f with Value := Value.boolPtr (some v) }

/-- Modelled from the spec: the setter `field.SetInt` is missing. -/
def StructField.SetInt (f : StructField) (v : Int) : StructField :=
  { f with Value := Value.int v }

/-- Modelled from the spec: the setter `field.SetIntPointer` is missing. -/
def StructField.SetIntPointer (f : StructField) (v : Int) : StructField :=
  { f with Value := Value.intPtr (some v) }

/-- Modelled from the spec: the setter `field.SetString` is missing. -/
def StructField.SetString (f : StructField) (v : String) : StructField :=
  { f with Value := Value.string v }

/-- Modelled from the spec: the setter `field.SetStringPointer` is missing. -/
def StructField.SetStringPointer (f : StructField) (v : String) : StructField :=
  { f with Value := Value.stringPtr (some v) }

/-- Modelled from the spec: the setter `field.SetStringSlice` is missing. -/
def StructField.SetStringSlice (f : StructField) (v : List String) : StructField :=
  { f with Value := Value.stringSlice (some v) }

/-- Modelled from the spec: the setter `field.SetStringSlicePointer` is missing. -/
def StructField.SetStringSlicePointer (f : StructField) (v : List String) : StructField :=
  { f with Value := Value.stringSlicePtr (some (some v)) }

/-- Modelled from the spec: `newConfiguration` and the type it returns are
missing. The argument of `Load` is represented by what `newConfiguration` makes
of it: whether it is a pointer, whether it references a struct, and the fields
of that struct. -/
structure Configuration where
  IsPointer : Bool
  IsStruct : Bool
  Fields : List StructField
  deriving DecidableEq, Repr

/-- The process environment as `os.LookupEnv` sees it. -/
abbrev Environ := String → Option String

/-! ## `Load` (load.go, lines 55-247) -/

/-- The message of a not-found error, `kind` being the text in brackets. -/
def notFoundMessage (name environmentKey kind : String) : String :=
  "failed to load '" ++ name ++ "' via \"$\x7b" ++ environmentKey ++ "\x7d\" (" ++ kind ++ ")"

/-- The message of a boolean parse error. -/
def parseBoolMessage (raw name : String) : String :=
  "failed to parse '" ++ raw ++ "' as a boolean for loading '" ++ name ++ "'"

/-- The message of an integer parse error. -/
def parseIntMessage (raw name : String) : String :=
  "failed to parse '" ++ raw ++ "' as an int for loading '" ++ name ++ "'"

/-- The message of an invalid-type error. -/
def invalidTypeMessage (name environmentKey typeName : String) : String :=
  "failed to load '" ++ name ++ "' (via \"$\x7b" ++ environmentKey ++ "\x7d\") of type '" ++ typeName ++ "'"

/-- The lookups at the head of every turn of the loop (load.go, lines 71-73),
for one field under an environment. -/
structure Lookup where
  environmentKey : String
  environmentValue : String
  isEnvironmentDefined : Bool
  defaultValue : Option String

/-- `field.GetEnvironmentKey()`, `os.LookupEnv(environmentKey)` and
`field.GetDefaultValue()`. An undefined variable reads as the empty string. -/
def lookup (env : Environ) (field : StructField) : Lookup :=
  { environmentKey := field.GetEnvironmentKey
    environmentValue := (env field.GetEnvironmentKey).getD ""
    isEnvironmentDefined := (env field.GetEnvironmentKey).isSome
    defaultValue := field.GetDefaultValue }

/-- The case `"[]string"` (load.go, lines 76-96). -/
def loadStringSlice (l : Lookup) (errors : LoadErrors) (field : StructField) :
    LoadErrors × StructField :=
  let delimiter := (field.TagLookup StructTagKeyDelimiter).getD DefaultStringSliceDelimiter
  let r : String × LoadErrors :=
    match l.defaultValue with
    | some d => (d, errors)
    | none =>
      if l.isEnvironmentDefined = false then
        ("", errors ++ [⟨ErrorLoadNotFound, notFoundMessage field.Name l.environmentKey "string"⟩])
      else ("", errors)
  let stringValue := if l.isEnvironmentDefined then l.environmentValue else r.1
  let stringValue := Trim stringValue delimiter
  let stringSliceValue := Split stringValue delimiter
  (r.2, field.SetStringSlice stringSliceValue)

/-- The case `"*[]string"` (load.go, lines 97-114); the first result is the
`break`. -/
def loadStringSlicePointer (l : Lookup) (errors : LoadErrors) (field : StructField) :
    LoadErrors × StructField :=
  let delimiter := (field.TagLookup "delimiter").getD DefaultStringSliceDelimiter
  if l.defaultValue = none ∧ l.isEnvironmentDefined = false then (errors, field)
  else
    let stringValue := l.defaultValue.getD ""
    let stringValue := if l.isEnvironmentDefined then l.environmentValue else stringValue
    let stringValue := Trim stringValue delimiter
    let stringSliceValue := Split stringValue delimiter
    (errors, field.SetStringSlicePointer stringSliceValue)

/-- The case `"string"` (load.go, lines 115-128). -/
def loadString (l : Lookup) (errors : LoadErrors) (field : StructField) :
    LoadErrors × StructField :=
  let r : String × LoadErrors :=
    match l.defaultValue with
    | some d => (d, errors)
    | none =>
      if l.isEnvironmentDefined = false then
        ("", errors ++ [⟨ErrorLoadNotFound, notFoundMessage field.Name l.environmentKey "string"⟩])
      else ("", errors)
  let stringValue := if l.isEnvironmentDefined then l.environmentValue else r.1
  (r.2, field.SetString stringValue)

/-- The case `"*string"` (load.go, lines 129-139). -/
def loadStringPointer (l : Lookup) (errors : LoadErrors) (field : StructField) :
    LoadErrors × StructField :=
  if l.defaultValue = none ∧ l.isEnvironmentDefined = false then (errors, field)
  else
    let stringValue := l.defaultValue.getD ""
    let stringValue := if l.isEnvironmentDefined then l.environmentValue else stringValue
    (errors, field.SetStringPointer stringValue)

/-- The parse of the environment value of a bool field, over the value and
errors `r` that the default left (load.go, lines 156-163 and 178-185). -/
def parseBoolEnvironment (l : Lookup) (r : Bool × LoadErrors) (field : StructField) :
    Bool × LoadErrors :=
  if l.isEnvironmentDefined then
    if (ParseBool l.environmentValue).2 ≠ none then
      ((ParseBool l.environmentValue).1,
        r.2 ++ [⟨ErrorLoadInvalidValue, parseBoolMessage l.environmentValue field.Name⟩])
    else ((ParseBool l.environmentValue).1, r.2)
  else r

/-- The case `"bool"` (load.go, lines 140-164). -/
def loadBool (l : Lookup) (errors : LoadErrors) (field : StructField) :
    LoadErrors × StructField :=
  let r : Bool × LoadErrors :=
    match l.defaultValue with
    | some d =>
      if (ParseBool d).2 ≠ none then
        ((ParseBool d).1, errors ++ [⟨ErrorLoadInvalidValue, parseBoolMessage d field.Name⟩])
      else ((ParseBool d).1, errors)
    | none =>
      if l.isEnvironmentDefined = false then
        (false, errors ++ [⟨ErrorLoadNotFound, notFoundMessage field.Name l.environmentKey "bool"⟩])
      else (false, errors)
  let r := parseBoolEnvironment l r field
  (r.2, field.SetBool r.1)

/-- The case `"*bool"` (load.go, lines 165-186). -/
def loadBoolPointer (l : Lookup) (errors : LoadErrors) (field : StructField) :
    LoadErrors × StructField :=
  if l.defaultValue = none ∧ l.isEnvironmentDefined = false then (errors, field)
  else
    let r : Bool × LoadErrors :=
      match l.defaultValue with
      | some d =>
        if (ParseBool d).2 ≠ none then
          ((ParseBool d).1, errors ++ [⟨ErrorLoadInvalidValue, parseBoolMessage d field.Name⟩])
        else ((ParseBool d).1, errors)
      | none => (false, errors)
    let r := parseBoolEnvironment l r field
    (r.2, field.SetBoolPointer r.1)

/-- The parse of the environment value of an int field, over the value and
errors `r` that the default left (load.go, lines 203-210 and 225-232). -/
def parseIntEnvironment (l : Lookup) (r : Int × LoadErrors) (field : StructField) :
    Int × LoadErrors :=
  if l.isEnvironmentDefined then
    if (ParseInt l.environmentValue).2 ≠ none then
      ((ParseInt l.environmentValue).1,
        r.2 ++ [⟨ErrorLoadInvalidValue, parseIntMessage l.environmentValue field.Name⟩])
    else ((ParseInt l.environmentValue).1, r.2)
  else r

/-- The case `"int"` (load.go, lines 187-211). -/
def loadInt (l : Lookup) (errors : LoadErrors) (field : StructField) :
    LoadErrors × StructField :=
  let r : Int × LoadErrors :=
    match l.defaultValue with
    | some d =>
      if (ParseInt d).2 ≠ none then
        ((ParseInt d).1, errors ++ [⟨ErrorLoadInvalidValue, parseIntMessage d field.Name⟩])
      else ((ParseInt d).1, errors)
    | none =>
      if l.isEnvironmentDefined = false then
        (0, errors ++ [⟨ErrorLoadNotFound, notFoundMessage field.Name l.environmentKey "int"⟩])
      else (0, errors)
  let r := parseIntEnvironment l r field
  (r.2, field.SetInt (intOfInt64 r.1))

/-- The case `"*int"` (load.go, lines 212-233). -/
def loadIntPointer (l : Lookup) (errors : LoadErrors) (field : StructField) :
    LoadErrors × StructField :=
  if l.defaultValue = none ∧ l.isEnvironmentDefined = false then (errors, field)
  else
    let r : Int × LoadErrors :=
      match l.defaultValue with
      | some d =>
        if (ParseInt d).2 ≠ none then
          ((ParseInt d).1, errors ++ [⟨ErrorLoadInvalidValue, parseIntMessage d field.Name⟩])
        else ((ParseInt d).1, errors)
      | none => (0, errors)
    let r := parseIntEnvironment l r field
    (r.2, field.SetIntPointer (intOfInt64 r.1))

/-- The `default` case (load.go, lines 234-238). -/
def loadInvalidType (l : Lookup) (errors : LoadErrors) (field : StructField) :
    LoadErrors × StructField :=
  (errors ++ [⟨ErrorLoadInvalidType,
    invalidTypeMessage field.Name l.environmentKey field.TypeName⟩], field)

/-- One turn of the loop of `Load` (load.go, lines 71-239) on `field`, with the
errors collected so far: the errors after the turn and the field after it. The
switch is on `field.Type.String()`. -/
def loadField (env : Environ) (errors : LoadErrors) (field : StructField) :
    LoadErrors × StructField :=
  let l := lookup env field
  let fieldType := field.TypeName
  if fieldType = "[]string" then loadStringSlice l errors field
  else if fieldType = "*[]string" then loadStringSlicePointer l errors field
  else if fieldType = "string" then loadString l errors field
  else if fieldType = "*string" then loadStringPointer l errors field
  else if fieldType = "bool" then loadBool l errors field
  else if fieldType = "*bool" then loadBoolPointer l errors field
  else if fieldType = "int" then loadInt l errors field
  else if fieldType = "*int" then loadIntPointer l errors field
  else loadInvalidType l errors field

/-- The loop `for _, field := range c.Fields` of `Load`: the errors after the
loop and the fields after it. -/
def loadFields (env : Environ) : LoadErrors → List StructField → LoadErrors × List StructField
  | errors, [] => (errors, [])
  | errors, field :: rest =>
    let r := loadField env errors field
    let rs := loadFields env r.1 rest
    (rs.1, r.2 :: rs.2)

/-- The two prerequisite checks of `Load` (load.go, lines 56-64). -/
def prereqErrors (c : Configuration) : LoadErrors :=
  let errors : LoadErrors := []
  let errors :=
    if c.IsPointer = false then
      errors ++ [⟨ErrorLoadPrereqs, "failed to receive a valid pointer"⟩]
    else errors
  let errors :=
    if c.IsStruct = false then
      errors ++ [⟨ErrorLoadPrereqs, "failed to receive a valid struct"⟩]
    else errors
  errors

/-- `Load` under the environment `env`: the returned error (`none` is `nil`) and
the argument after the call. -/
def Load (env : Environ) (c : Configuration) : Option LoadErrors × Configuration :=
  let errors := prereqErrors c
  if errors.length > 0 then (some errors, c)
  else
    let r := loadFields env errors c.Fields
    if r.1.length > 0 then (some r.1, { c with Fields := r.2 })
    else (none, { c with Fields := r.2 })


/-! ## Derived notions used to state the properties -/

/-- The errors that the turn of the loop for `field` appends, i.e. what the
field contributes. -/
def fieldErrors (env : Environ) (field : StructField) : LoadErrors :=
  (loadField env [] field).1

/-- The field after its turn of the loop. -/
def fieldResult (env : Environ) (field : StructField) : StructField :=
  (loadField env [] field).2

/-- The delimiter of a string-sequence field: the `delimiter` tag, else `,`. -/
def StructField.delimiter (f : StructField) : String :=
  (f.TagLookup StructTagKeyDelimiter).getD DefaultStringSliceDelimiter

/-- The value coercer as the specification words it, for a declared type and a
raw literal: a string is used verbatim, a bool and an int are parsed, a string
sequence is trimmed of boundary delimiter characters and split on the
delimiter; the optional forms wrap the result in a pointer. The result is
`none` when the literal is not valid for the type or the type is not
supported. -/
def coerced (typeName delimiter raw : String) : Option Value :=
  if typeName = "string" then some (Value.string raw)
  else if typeName = "*string" then some (Value.stringPtr (some raw))
  else if typeName = "bool" then
    if (ParseBool raw).2 = none then some (Value.bool (ParseBool raw).1) else none
  else if typeName = "*bool" then
    if (ParseBool raw).2 = none then some (Value.boolPtr (some (ParseBool raw).1)) else none
  else if typeName = "int" then
    if (ParseInt raw).2 = none then some (Value.int (ParseInt raw).1) else none
  else if typeName = "*int" then
    if (ParseInt raw).2 = none then some (Value.intPtr (some (ParseInt raw).1)) else none
  else if typeName = "[]string" then
    some (Value.stringSlice (some (Split (Trim raw delimiter) delimiter)))
  else if typeName = "*[]string" then
    some (Value.stringSlicePtr (some (some (Split (Trim raw delimiter) delimiter))))
  else none

/-- The required (non-pointer) supported types. -/
def isRequiredType (typeName : String) : Prop :=
  typeName = "bool" ∨ typeName = "int" ∨ typeName = "string" ∨ typeName = "[]string"

/-- The optional (pointer) supported types. -/
def isOptionalType (typeName : String) : Prop :=
  typeName = "*bool" ∨ typeName = "*int" ∨ typeName = "*string" ∨ typeName = "*[]string"

/-- The eight supported types. -/
def isSupportedType (typeName : String) : Prop :=
  isRequiredType typeName ∨ isOptionalType typeName

instance (t : String) : Decidable (isRequiredType t) := by
  unfold isRequiredType; infer_instance

instance (t : String) : Decidable (isOptionalType t) := by
  unfold isOptionalType; infer_instance

instance (t : String) : Decidable (isSupportedType t) := by
  unfold isSupportedType; infer_instance

/-- The types whose raw value is parsed: bool and int, plain and optional. -/
def isParsedType (typeName : String) : Prop :=
  typeName = "bool" ∨ typeName = "*bool" ∨ typeName = "int" ∨ typeName = "*int"

instance (t : String) : Decidable (isParsedType t) := by
  unfold isParsedType; infer_instance

/-- The raw value of a field as the specification words it: the environment
value if the key is defined, otherwise the default literal, otherwise none. -/
def rawValue (env : Environ) (f : StructField) : Option String :=
  match env f.GetEnvironmentKey with
  | some v => some v
  | none => f.GetDefaultValue

/-- The errors collected when `Load` returns: the prerequisite errors if there
are any, otherwise those of the loop over the fields. -/
def collectedErrors (env : Environ) (c : Configuration) : LoadErrors :=
  if (prereqErrors c).length > 0 then prereqErrors c
  else (loadFields env (prereqErrors c) c.Fields).1

/-- The standard boolean literals, the `true/false/1/0/t/f` family of the
specification. -/
def isBoolLiteral (s : String) : Prop :=
  s ∈ ["1", "t", "T", "TRUE", "true", "True", "0", "f", "F", "FALSE", "false", "False"]

/-- A base-10 signed integer as the specification words it: an optional sign
followed by at least one decimal digit and nothing else. -/
def isDecimalInteger (s : String) : Prop :=
  let body : List Char :=
    if s.data.head? = some '+' ∨ s.data.head? = some '-' then s.data.tail else s.data
  body ≠ [] ∧ ∀ c ∈ body, 48 ≤ c.toNat ∧ c.toNat ≤ 57

/-- The literal is of the family the specification names for a parsed type. -/
def isLiteralOfType (typeName raw : String) : Prop :=
  if typeName = "bool" ∨ typeName = "*bool" then isBoolLiteral raw
  else if typeName = "int" ∨ typeName = "*int" then isDecimalInteger raw
  else True

instance (s : String) : Decidable (isBoolLiteral s) := by
  unfold isBoolLiteral; infer_instance

instance (s : String) : Decidable (isDecimalInteger s) := by
  unfold isDecimalInteger; infer_instance

instance (t s : String) : Decidable (isLiteralOfType t s) := by
  unfold isLiteralOfType; infer_instance

/-- The types of the string-sequence fields. -/
def isStringSliceType (typeName : String) : Prop :=
  typeName = "[]string" ∨ typeName = "*[]string"

instance (t : String) : Decidable (isStringSliceType t) := by
  unfold isStringSliceType; infer_instance

/-- A sequence as the value of a string-sequence field: the slice itself for
`[]string`, a pointer to it for the optional form. -/
def sliceValue (typeName : String) (l : List String) : Value :=
  if typeName = "[]string" then Value.stringSlice (some l)
  else Value.stringSlicePtr (some (some l))

/-- The value a parser returns for a raw literal, valid or not, as the value of
a bool or int field: the plain value, or a pointer to it for the optional
forms. -/
def parsedValue (typeName raw : String) : Value :=
  if typeName = "bool" then Value.bool (ParseBool raw).1
  else if typeName = "*bool" then Value.boolPtr (some (ParseBool raw).1)
  else if typeName = "int" then Value.int (ParseInt raw).1
  else Value.intPtr (some (ParseInt raw).1)

/-- The value that a required field holds after a not-found error: what its
setter receives when no raw value was resolved. -/
def unresolvedValue (typeName delimiter : String) : Value :=
  if typeName = "bool" then Value.bool false
  else if typeName = "int" then Value.int 0
  else if typeName = "string" then Value.string ""
  else Value.stringSlice (some (Split (Trim "" delimiter) delimiter))

/-- The error a parsed field reports for a raw literal that its parser rejects,
none for a literal it accepts. -/
def parseErrors (typeName raw name : String) : LoadErrors :=
  if typeName = "bool" ∨ typeName = "*bool" then
    if (ParseBool raw).2 ≠ none then [⟨ErrorLoadInvalidValue, parseBoolMessage raw name⟩]
    else []
  else
    if (ParseInt raw).2 ≠ none then [⟨ErrorLoadInvalidValue, parseIntMessage raw name⟩]
    else []

/-- The descriptor of a field: all of it but the current value. -/
def StructField.descriptor (f : StructField) : String × String × List (String × String) :=
  (f.Name, f.TypeName, f.Tag)

/-! # Properties -/

/-! ## Bitwise facts on `Int` -/

theorem int_testBit_ofNat (m k : Nat) : Int.testBit (m : Int) k = Nat.testBit m k := rfl

theorem int_testBit_negSucc (m k : Nat) : Int.testBit (Int.negSucc m) k = !Nat.testBit m k := rfl

theorem nat_exists_testBit_false (m n : Nat) :
    ∃ k, Nat.testBit m k = false ∧ Nat.testBit n k = false := by
  refine ⟨max m n, ?_, ?_⟩
  · apply Nat.testBit_lt_two_pow
    exact lt_of_le_of_lt (le_max_left m n) (Nat.lt_two_pow _)
  · apply Nat.testBit_lt_two_pow
    exact lt_of_le_of_lt (le_max_right m n) (Nat.lt_two_pow _)

theorem int_eq_of_testBit_eq (x y : Int) (h : ∀ k, Int.testBit x k = Int.testBit y k) :
    x = y := by
  cases x with
  | ofNat m =>
    cases y with
    | ofNat n =>
      congr 1
      exact Nat.eq_of_testBit_eq h
    | negSucc n =>
      exfalso
      obtain ⟨k, hm, hn⟩ := nat_exists_testBit_false m n
      have := h k
      simp [Int.testBit, hm, hn] at this
  | negSucc m =>
    cases y with
    | ofNat n =>
      exfalso
      obtain ⟨k, hm, hn⟩ := nat_exists_testBit_false m n
      have := h k
      simp [Int.testBit, hm, hn] at this
    | negSucc n =>
      congr 1
      apply Nat.eq_of_testBit_eq
      intro k
      have := h k
      simpa [Int.testBit] using this

theorem int_testBit_zero (k : Nat) : Int.testBit 0 k = false := by
  show Nat.testBit 0 k = false
  simp

theorem int_lor_assoc (a b c : Int) : Int.lor (Int.lor a b) c = Int.lor a (Int.lor b c) := by
  apply int_eq_of_testBit_eq
  intro k
  simp [Int.testBit_lor, Bool.or_assoc]

theorem int_zero_lor (a : Int) : Int.lor 0 a = a := by
  apply int_eq_of_testBit_eq
  intro k
  rw [Int.testBit_lor, int_testBit_zero]
  simp

theorem int_testBit_two_pow (k j : Nat) : Int.testBit ((2 : Int) ^ k) j = decide (k = j) := by
  have : ((2 : Int) ^ k) = ((2 ^ k : Nat) : Int) := by push_cast; rfl
  rw [this, int_testBit_ofNat, Nat.testBit_two_pow]

theorem int_land_two_pow_iff (x : Int) (k : Nat) :
    Int.land x (2 ^ k) = 2 ^ k ↔ Int.testBit x k = true := by
  constructor
  · intro h
    have := congrArg (fun z => Int.testBit z k) h
    simpa [Int.testBit_land, int_testBit_two_pow] using this
  · intro h
    apply int_eq_of_testBit_eq
    intro j
    rw [Int.testBit_land, int_testBit_two_pow]
    by_cases hj : k = j
    · subst hj; simp [h]
    · simp [hj]

theorem int_land_two_pow_eq_zero_iff (x : Int) (k : Nat) :
    Int.land x (2 ^ k) = 0 ↔ Int.testBit x k = false := by
  constructor
  · intro h
    have := congrArg (fun z => Int.testBit z k) h
    simpa [Int.testBit_land, int_testBit_two_pow, int_testBit_zero] using this
  · intro h
    apply int_eq_of_testBit_eq
    intro j
    rw [Int.testBit_land, int_testBit_two_pow, int_testBit_zero]
    by_cases hj : k = j
    · subst hj; simp [h]
    · simp [hj]

/-! ## The combined code -/

theorem GetCode_foldl (es : LoadErrors) (init : Int) :
    List.foldl (fun code err => Int.lor code err.Code) init es
      = Int.lor init (LoadErrors.GetCode es) := by
  induction es generalizing init with
  | nil =>
    apply int_eq_of_testBit_eq
    intro k
    simp [LoadErrors.GetCode, Int.testBit_lor, int_testBit_zero]
  | cons e es ih =>
    simp only [LoadErrors.GetCode, List.foldl_cons]
    rw [ih, ih (Int.lor 0 e.Code), int_zero_lor, int_lor_assoc]

theorem GetCode_nil : LoadErrors.GetCode [] = 0 := rfl

theorem GetCode_cons (e : LoadError) (es : LoadErrors) :
    LoadErrors.GetCode (e :: es) = Int.lor e.Code (LoadErrors.GetCode es) := by
  simp only [LoadErrors.GetCode, List.foldl_cons]
  rw [GetCode_foldl, int_zero_lor]
  rfl

theorem GetCode_append (a b : LoadErrors) :
    LoadErrors.GetCode (a ++ b) = Int.lor (LoadErrors.GetCode a) (LoadErrors.GetCode b) := by
  induction a with
  | nil => simp [GetCode_nil, int_zero_lor]
  | cons e a ih => 
    rw [List.cons_append, GetCode_cons, GetCode_cons, ih, int_lor_assoc]

theorem GetCode_testBit (es : LoadErrors) (k : Nat) :
    Int.testBit (LoadErrors.GetCode es) k = es.any (fun e => Int.testBit e.Code k) := by
  induction es with
  | nil => simp [GetCode_nil, int_testBit_zero]
  | cons e es ih => rw [GetCode_cons, Int.testBit_lor, ih, List.any_cons]

/-! ## The loop of `Load` -/

theorem loadStringSlice_eq (l : Lookup) (errs : LoadErrors) (f : StructField) :
    loadStringSlice l errs f
      = (errs ++ (loadStringSlice l [] f).1, (loadStringSlice l [] f).2) := by
  unfold loadStringSlice
  cases l.defaultValue <;> cases l.isEnvironmentDefined <;> simp

theorem loadStringSlicePointer_eq (l : Lookup) (errs : LoadErrors) (f : StructField) :
    loadStringSlicePointer l errs f
      = (errs ++ (loadStringSlicePointer l [] f).1, (loadStringSlicePointer l [] f).2) := by
  unfold loadStringSlicePointer
  cases l.defaultValue <;> cases l.isEnvironmentDefined <;> simp

theorem loadString_eq (l : Lookup) (errs : LoadErrors) (f : StructField) :
    loadString l errs f = (errs ++ (loadString l [] f).1, (loadString l [] f).2) := by
  unfold loadString
  cases l.defaultValue <;> cases l.isEnvironmentDefined <;> simp

theorem loadStringPointer_eq (l : Lookup) (errs : LoadErrors) (f : StructField) :
    loadStringPointer l errs f
      = (errs ++ (loadStringPointer l [] f).1, (loadStringPointer l [] f).2) := by
  unfold loadStringPointer
  cases l.defaultValue <;> cases l.isEnvironmentDefined <;> simp

theorem loadBool_eq (l : Lookup) (errs : LoadErrors) (f : StructField) :
    loadBool l errs f = (errs ++ (loadBool l [] f).1, (loadBool l [] f).2) := by
  unfold loadBool parseBoolEnvironment
  cases l.defaultValue <;> cases l.isEnvironmentDefined <;> simp <;> split_ifs <;> simp

theorem loadBoolPointer_eq (l : Lookup) (errs : LoadErrors) (f : StructField) :
    loadBoolPointer l errs f
      = (errs ++ (loadBoolPointer l [] f).1, (loadBoolPointer l [] f).2) := by
  unfold loadBoolPointer parseBoolEnvironment
  cases l.defaultValue <;> cases l.isEnvironmentDefined <;> simp <;> split_ifs <;> simp

theorem loadInt_eq (l : Lookup) (errs : LoadErrors) (f : StructField) :
    loadInt l errs f = (errs ++ (loadInt l [] f).1, (loadInt l [] f).2) := by
  unfold loadInt parseIntEnvironment
  cases l.defaultValue <;> cases l.isEnvironmentDefined <;> simp <;> split_ifs <;> simp

theorem loadIntPointer_eq (l : Lookup) (errs : LoadErrors) (f : StructField) :
    loadIntPointer l errs f
      = (errs ++ (loadIntPointer l [] f).1, (loadIntPointer l [] f).2) := by
  unfold loadIntPointer parseIntEnvironment
  cases l.defaultValue <;> cases l.isEnvironmentDefined <;> simp <;> split_ifs <;> simp

theorem loadInvalidType_eq (l : Lookup) (errs : LoadErrors) (f : StructField) :
    loadInvalidType l errs f
      = (errs ++ (loadInvalidType l [] f).1, (loadInvalidType l [] f).2) := by
  simp [loadInvalidType]

theorem loadField_eq (env : Environ) (errs : LoadErrors) (f : StructField) :
    loadField env errs f = (errs ++ fieldErrors env f, fieldResult env f) := by
  unfold fieldErrors fieldResult loadField
  simp only []
  split_ifs
  · exact loadStringSlice_eq _ _ _
  · exact loadStringSlicePointer_eq _ _ _
  · exact loadString_eq _ _ _
  · exact loadStringPointer_eq _ _ _
  · exact loadBool_eq _ _ _
  · exact loadBoolPointer_eq _ _ _
  · exact loadInt_eq _ _ _
  · exact loadIntPointer_eq _ _ _
  · exact loadInvalidType_eq _ _ _

theorem loadFields_eq (env : Environ) (errs : LoadErrors) (fs : List StructField) :
    loadFields env errs fs
      = (errs ++ fs.flatMap (fieldErrors env), fs.map (fieldResult env)) := by
  induction fs generalizing errs with
  | nil => simp [loadFields]
  | cons f fs ih =>
    simp only [loadFields, ih, List.flatMap_cons, List.map_cons]
    rw [loadField_eq]
    simp

theorem prereqErrors_nil (c : Configuration) (hp : c.IsPointer = true) (hs : c.IsStruct = true) :
    prereqErrors c = [] := by
  simp [prereqErrors, hp, hs]

theorem Load_eq (env : Environ) (c : Configuration) (hp : c.IsPointer = true)
    (hs : c.IsStruct = true) :
    Load env c =
      (if c.Fields.flatMap (fieldErrors env) = [] then none
        else some (c.Fields.flatMap (fieldErrors env)),
       { c with Fields := c.Fields.map (fieldResult env) }) := by
  unfold Load
  rw [prereqErrors_nil c hp hs]
  simp only [loadFields_eq, List.nil_append, List.length_nil, gt_iff_lt, lt_self_iff_false,
    if_false]
  by_cases h : c.Fields.flatMap (fieldErrors env) = []
  · simp [h]
  · have : 0 < (c.Fields.flatMap (fieldErrors env)).length := List.length_pos.mpr h
    rw [if_pos this, if_neg h]

/-! ## The switch, case by case -/

theorem loadField_stringSlice (env : Environ) (errs : LoadErrors) (f : StructField)
    (h : f.TypeName = "[]string") :
    loadField env errs f = loadStringSlice (lookup env f) errs f := by
  unfold loadField; simp [h]

theorem loadField_stringSlicePointer (env : Environ) (errs : LoadErrors) (f : StructField)
    (h : f.TypeName = "*[]string") :
    loadField env errs f = loadStringSlicePointer (lookup env f) errs f := by
  unfold loadField; simp [h]

theorem loadField_string (env : Environ) (errs : LoadErrors) (f : StructField)
    (h : f.TypeName = "string") :
    loadField env errs f = loadString (lookup env f) errs f := by
  unfold loadField; simp [h]

theorem loadField_stringPointer (env : Environ) (errs : LoadErrors) (f : StructField)
    (h : f.TypeName = "*string") :
    loadField env errs f = loadStringPointer (lookup env f) errs f := by
  unfold loadField; simp [h]

theorem loadField_bool (env : Environ) (errs : LoadErrors) (f : StructField)
    (h : f.TypeName = "bool") :
    loadField env errs f = loadBool (lookup env f) errs f := by
  unfold loadField; simp [h]

theorem loadField_boolPointer (env : Environ) (errs : LoadErrors) (f : StructField)
    (h : f.TypeName = "*bool") :
    loadField env errs f = loadBoolPointer (lookup env f) errs f := by
  unfold loadField; simp [h]

theorem loadField_int (env : Environ) (errs : LoadErrors) (f : StructField)
    (h : f.TypeName = "int") :
    loadField env errs f = loadInt (lookup env f) errs f := by
  unfold loadField; simp [h]

theorem loadField_intPointer (env : Environ) (errs : LoadErrors) (f : StructField)
    (h : f.TypeName = "*int") :
    loadField env errs f = loadIntPointer (lookup env f) errs f := by
  unfold loadField; simp [h]

theorem loadField_invalidType (env : Environ) (errs : LoadErrors) (f : StructField)
    (h : ¬ isSupportedType f.TypeName) :
    loadField env errs f = loadInvalidType (lookup env f) errs f := by
  unfold isSupportedType isRequiredType isOptionalType at h
  simp only [not_or] at h
  unfold loadField
  simp [h]

/-! ## Flags in a combined code -/

theorem ErrorLoadPrereqs_eq : ErrorLoadPrereqs = 2 ^ 1 := by decide

theorem ErrorLoadNotFound_eq : ErrorLoadNotFound = 2 ^ 2 := by decide

theorem ErrorLoadInvalidType_eq : ErrorLoadInvalidType = 2 ^ 3 := by decide

theorem ErrorLoadInvalidValue_eq : ErrorLoadInvalidValue = 2 ^ 4 := by decide

theorem GetCode_land_iff (es : LoadErrors) (k : Nat) :
    Int.land (LoadErrors.GetCode es) (2 ^ k) = 2 ^ k
      ↔ ∃ e ∈ es, Int.land e.Code (2 ^ k) = 2 ^ k := by
  rw [int_land_two_pow_iff, GetCode_testBit, List.any_eq_true]
  constructor
  · rintro ⟨e, he, hb⟩
    exact ⟨e, he, (int_land_two_pow_iff _ _).mpr hb⟩
  · rintro ⟨e, he, hb⟩
    exact ⟨e, he, (int_land_two_pow_iff _ _).mp hb⟩

theorem int_land_self_two_pow (k : Nat) : Int.land ((2 : Int) ^ k) (2 ^ k) = 2 ^ k := by
  rw [int_land_two_pow_iff, int_testBit_two_pow]
  simp

theorem GetCode_land_of_mem (es : LoadErrors) (e : LoadError) (k : Nat) (he : e ∈ es)
    (hc : e.Code = 2 ^ k) : Int.land (LoadErrors.GetCode es) (2 ^ k) = 2 ^ k := by
  rw [GetCode_land_iff]
  exact ⟨e, he, by rw [hc]; exact int_land_self_two_pow k⟩

theorem int_lor_self (a : Int) : Int.lor a a = a := by
  apply int_eq_of_testBit_eq
  intro k
  simp [Int.testBit_lor]

theorem GetCode_of_all_eq (es : LoadErrors) (code : Int) (hne : es ≠ [])
    (h : ∀ e ∈ es, e.Code = code) : LoadErrors.GetCode es = code := by
  induction es with
  | nil => exact absurd rfl hne
  | cons e es ih =>
    rw [GetCode_cons, h e (List.mem_cons_self _ _)]
    by_cases hes : es = []
    · subst hes
      rw [GetCode_nil]
      apply int_eq_of_testBit_eq
      intro k
      simp [Int.testBit_lor, int_testBit_zero]
    · rw [ih hes (fun x hx => h x (List.mem_cons_of_mem _ hx)), int_lor_self]

theorem int_testBit_minInt64 (j : Nat) :
    Int.testBit (-(2 : Int) ^ 63) j = decide (63 ≤ j) := by
  have : (-(2 : Int) ^ 63) = Int.negSucc (2 ^ 63 - 1) := by decide
  rw [this, int_testBit_negSucc, Nat.testBit_two_pow_sub_one]
  by_cases h : j < 63 <;> simp [h]
  omega

theorem int_testBit_high_of_range (x : Int) (h : -(2 : Int) ^ 63 ≤ x ∧ x < 2 ^ 63) (j : Nat)
    (hj : 63 ≤ j) : Int.testBit x j = decide (x < 0) := by
  have hpow : (2 : Nat) ^ 63 ≤ 2 ^ j := Nat.pow_le_pow_right (by decide) hj
  cases x with
  | ofNat m =>
    have hm : m < 2 ^ 63 := by
      have := h.2
      norm_num at this
      omega
    have : Nat.testBit m j = false := Nat.testBit_lt_two_pow (lt_of_lt_of_le hm hpow)
    show Nat.testBit m j = _
    rw [this]
    simp
  | negSucc m =>
    have hm : m < 2 ^ 63 := by
      have := h.1
      rw [Int.negSucc_eq] at this
      norm_num at this
      omega
    have : Nat.testBit m j = false := Nat.testBit_lt_two_pow (lt_of_lt_of_le hm hpow)
    rw [int_testBit_negSucc, this]
    simp
    exact Int.negSucc_lt_zero m

theorem int_land_minInt64_iff (x : Int) :
    Int.land x (-(2 : Int) ^ 63) = -(2 : Int) ^ 63 ↔ ∀ j, 63 ≤ j → Int.testBit x j = true := by
  constructor
  · intro h j hj
    have := congrArg (fun z => Int.testBit z j) h
    simp only [Int.testBit_land, int_testBit_minInt64] at this
    simpa [hj] using this
  · intro h
    apply int_eq_of_testBit_eq
    intro j
    rw [Int.testBit_land, int_testBit_minInt64]
    by_cases hj : 63 ≤ j
    · simp [hj, h j hj]
    · simp [hj]

theorem GetCode_land_minInt64_iff (es : LoadErrors)
    (hr : ∀ x ∈ es, -(2 : Int) ^ 63 ≤ x.Code ∧ x.Code < 2 ^ 63) :
    Int.land (LoadErrors.GetCode es) (-(2 : Int) ^ 63) = -(2 : Int) ^ 63
      ↔ ∃ x ∈ es, Int.land x.Code (-(2 : Int) ^ 63) = -(2 : Int) ^ 63 := by
  rw [int_land_minInt64_iff]
  constructor
  · intro h
    have h63 := h 63 (le_refl _)
    rw [GetCode_testBit, List.any_eq_true] at h63
    obtain ⟨x, hx, hb⟩ := h63
    refine ⟨x, hx, (int_land_minInt64_iff _).mpr ?_⟩
    intro j hj
    rw [int_testBit_high_of_range _ (hr x hx) j hj,
      ← int_testBit_high_of_range _ (hr x hx) 63 (le_refl _)]
    exact hb
  · rintro ⟨x, hx, hb⟩ j hj
    rw [GetCode_testBit, List.any_eq_true]
    exact ⟨x, hx, (int_land_minInt64_iff _).mp hb j hj⟩

/-! ## What a field contributes, by situation -/

theorem lookup_defaultValue (env : Environ) (f : StructField) :
    (lookup env f).defaultValue = f.GetDefaultValue := rfl

theorem lookup_isEnvironmentDefined (env : Environ) (f : StructField) :
    (lookup env f).isEnvironmentDefined = (env f.GetEnvironmentKey).isSome := rfl

theorem lookup_environmentValue (env : Environ) (f : StructField) :
    (lookup env f).environmentValue = (env f.GetEnvironmentKey).getD "" := rfl

theorem lookup_environmentKey (env : Environ) (f : StructField) :
    (lookup env f).environmentKey = f.GetEnvironmentKey := rfl

theorem fieldErrors_notFound (env : Environ) (f : StructField)
    (ht : isRequiredType f.TypeName) (hd : f.GetDefaultValue = none)
    (he : env f.GetEnvironmentKey = none) :
    ∃ kind, fieldErrors env f
      = [⟨ErrorLoadNotFound, notFoundMessage f.Name f.GetEnvironmentKey kind⟩] := by
  unfold fieldErrors
  rcases ht with h | h | h | h
  · refine ⟨"bool", ?_⟩
    rw [loadField_bool env [] f h]
    simp [loadBool, parseBoolEnvironment, lookup, hd, he]
  · refine ⟨"int", ?_⟩
    rw [loadField_int env [] f h]
    simp [loadInt, parseIntEnvironment, lookup, hd, he]
  · refine ⟨"string", ?_⟩
    rw [loadField_string env [] f h]
    simp [loadString, lookup, hd, he]
  · refine ⟨"string", ?_⟩
    rw [loadField_stringSlice env [] f h]
    simp [loadStringSlice, lookup, hd, he]

/-- C1. For a record passed by pointer and a field of a required supported type
(bool, int, string, []string) with no default tag whose environment key is not
defined, Load returns a non-nil LoadErrors whose GetCode has the
ErrorLoadNotFound bit set; when the field is the only field of the record,
GetCode is exactly ErrorLoadNotFound. -/
theorem C1_required_field_not_found (env : Environ) (c : Configuration) (f : StructField)
    (hp : c.IsPointer = true) (hs : c.IsStruct = true) (hf : f ∈ c.Fields)
    (ht : isRequiredType f.TypeName) (hd : f.GetDefaultValue = none)
    (he : env f.GetEnvironmentKey = none) :
    ∃ es : LoadErrors, (Load env c).1 = some es ∧ es ≠ [] ∧
      Int.land es.GetCode ErrorLoadNotFound = ErrorLoadNotFound ∧
      (c.Fields = [f] → es.GetCode = ErrorLoadNotFound) := by
  obtain ⟨kind, hk⟩ := fieldErrors_notFound env f ht hd he
  have hmem : (⟨ErrorLoadNotFound, notFoundMessage f.Name f.GetEnvironmentKey kind⟩ : LoadError)
      ∈ c.Fields.flatMap (fieldErrors env) := by
    rw [List.mem_flatMap]
    exact ⟨f, hf, by rw [hk]; exact List.mem_singleton_self _⟩
  have hne : c.Fields.flatMap (fieldErrors env) ≠ [] := List.ne_nil_of_mem hmem
  refine ⟨c.Fields.flatMap (fieldErrors env), ?_, hne, ?_, ?_⟩
  · rw [Load_eq env c hp hs, if_neg hne]
  · rw [ErrorLoadNotFound_eq]
    exact GetCode_land_of_mem _ _ 2 hmem ErrorLoadNotFound_eq
  · intro hfs
    rw [hfs]
    simp [hk, GetCode_cons, GetCode_nil]
    apply int_eq_of_testBit_eq
    intro k
    simp [Int.testBit_lor, int_testBit_zero]

/-- C1 at a record whose only field is `Error bool`, under an empty environment. -/
theorem C1_required_field_not_found_witness :
    isRequiredType "bool" ∧
    ∃ es : LoadErrors,
      (Load (fun _ => none) ⟨true, true, [⟨"Error", "bool", [], Value.bool false⟩]⟩).1 = some es ∧
      es ≠ [] ∧ Int.land es.GetCode ErrorLoadNotFound = ErrorLoadNotFound ∧
      (([⟨"Error", "bool", [], Value.bool false⟩] : List StructField)
          = [⟨"Error", "bool", [], Value.bool false⟩] → es.GetCode = ErrorLoadNotFound) :=
  ⟨by decide,
    C1_required_field_not_found (fun _ => none)
      ⟨true, true, [⟨"Error", "bool", [], Value.bool false⟩]⟩
      ⟨"Error", "bool", [], Value.bool false⟩ rfl rfl (by decide) (by decide) (by decide) rfl⟩

theorem GetCode_land_eq_zero (es : LoadErrors) (k : Nat)
    (h : ∀ e ∈ es, Int.testBit e.Code k = false) :
    Int.land (LoadErrors.GetCode es) (2 ^ k) = 0 := by
  rw [int_land_two_pow_eq_zero_iff, GetCode_testBit]
  rw [Bool.eq_false_iff]
  intro hany
  rw [List.any_eq_true] at hany
  obtain ⟨e, he, hb⟩ := hany
  rw [h e he] at hb
  exact Bool.false_ne_true hb

theorem fieldErrors_optional_codes (env : Environ) (f : StructField)
    (ht : isOptionalType f.TypeName) :
    ∀ e ∈ fieldErrors env f, e.Code = ErrorLoadInvalidValue := by
  unfold fieldErrors
  rcases ht with h | h | h | h
  · rw [loadField_boolPointer env [] f h]
    unfold loadBoolPointer parseBoolEnvironment
    cases (lookup env f).defaultValue <;> cases (lookup env f).isEnvironmentDefined <;>
      simp <;> split_ifs <;> simp
  · rw [loadField_intPointer env [] f h]
    unfold loadIntPointer parseIntEnvironment
    cases (lookup env f).defaultValue <;> cases (lookup env f).isEnvironmentDefined <;>
      simp <;> split_ifs <;> simp
  · rw [loadField_stringPointer env [] f h]
    unfold loadStringPointer
    cases (lookup env f).defaultValue <;> cases (lookup env f).isEnvironmentDefined <;> simp
  · rw [loadField_stringSlicePointer env [] f h]
    unfold loadStringSlicePointer
    cases (lookup env f).defaultValue <;> cases (lookup env f).isEnvironmentDefined <;> simp

theorem loadField_optional_absent (env : Environ) (errs : LoadErrors) (f : StructField)
    (ht : isOptionalType f.TypeName) (hd : f.GetDefaultValue = none)
    (he : env f.GetEnvironmentKey = none) :
    loadField env errs f = (errs, f) := by
  rcases ht with h | h | h | h
  · rw [loadField_boolPointer env errs f h]
    simp [loadBoolPointer, lookup, hd, he]
  · rw [loadField_intPointer env errs f h]
    simp [loadIntPointer, lookup, hd, he]
  · rw [loadField_stringPointer env errs f h]
    simp [loadStringPointer, lookup, hd, he]
  · rw [loadField_stringSlicePointer env errs f h]
    simp [loadStringSlicePointer, lookup, hd, he]

theorem int_testBit_InvalidValue_two : Int.testBit ErrorLoadInvalidValue 2 = false := by decide

/-- C2. A field of an optional supported type (*bool, *int, *string, *[]string)
never contributes an ErrorLoadNotFound error, under any environment (what it
appends to the errors collected so far carries ErrorLoadInvalidValue only, so a
record of optional fields never has the ErrorLoadNotFound bit in its code); with
no default tag and an undefined environment key its turn of the loop appends
nothing and leaves the field as it was (nil stays nil), and Load on a record made
only of such fields returns nil and leaves the record as it was. -/
theorem C2_optional_field_never_not_found (env : Environ) (c : Configuration)
    (hp : c.IsPointer = true) (hs : c.IsStruct = true) :
    (∀ f : StructField, isOptionalType f.TypeName →
      (∀ errs : LoadErrors, ∃ extra : LoadErrors,
        (loadField env errs f).1 = errs ++ extra ∧
        ∀ e ∈ extra, e.Code ≠ ErrorLoadNotFound ∧ Int.land e.Code ErrorLoadNotFound = 0) ∧
      (f.GetDefaultValue = none → env f.GetEnvironmentKey = none →
        ∀ errs : LoadErrors, loadField env errs f = (errs, f))) ∧
    ((∀ f ∈ c.Fields, isOptionalType f.TypeName) →
      ∀ es : LoadErrors, (Load env c).1 = some es →
        Int.land es.GetCode ErrorLoadNotFound = 0) ∧
    ((∀ f ∈ c.Fields, isOptionalType f.TypeName ∧ f.GetDefaultValue = none ∧
        env f.GetEnvironmentKey = none) →
      Load env c = (none, c)) := by
  refine ⟨?_, ?_, ?_⟩
  · intro f ht
    refine ⟨?_, fun hd he errs => loadField_optional_absent env errs f ht hd he⟩
    intro errs
    refine ⟨fieldErrors env f, by rw [loadField_eq], ?_⟩
    intro e he
    rw [fieldErrors_optional_codes env f ht e he]
    exact ⟨by decide, by decide⟩
  · intro hall es hes
    rw [Load_eq env c hp hs] at hes
    have hes2 : es = c.Fields.flatMap (fieldErrors env) := by
      by_cases hnil : c.Fields.flatMap (fieldErrors env) = []
      · simp [hnil] at hes
      · simp only [if_neg hnil, Option.some.injEq] at hes
        exact hes.symm
    subst hes2
    rw [ErrorLoadNotFound_eq]
    apply GetCode_land_eq_zero
    intro e he
    rw [List.mem_flatMap] at he
    obtain ⟨f, hf, hef⟩ := he
    rw [fieldErrors_optional_codes env f (hall f hf) e hef]
    exact int_testBit_InvalidValue_two
  · intro hall
    have herr : c.Fields.flatMap (fieldErrors env) = [] := by
      rw [List.flatMap_eq_nil_iff]
      intro f hf
      obtain ⟨ht, hd, he⟩ := hall f hf
      unfold fieldErrors
      rw [loadField_optional_absent env [] f ht hd he]
    have hres : c.Fields.map (fieldResult env) = c.Fields := by
      conv_rhs => rw [← List.map_id c.Fields]
      apply List.map_congr_left
      intro f hf
      obtain ⟨ht, hd, he⟩ := hall f hf
      unfold fieldResult
      rw [loadField_optional_absent env [] f ht hd he]
      rfl
    rw [Load_eq env c hp hs, herr, hres]
    simp

/-- C2 at the record `Optional *int` with a nil field, under an empty environment. -/
theorem C2_optional_field_never_not_found_witness :
    (∀ f ∈ [(⟨"Optional", "*int", [], Value.intPtr none⟩ : StructField)],
      isOptionalType f.TypeName ∧ f.GetDefaultValue = none ∧
        (fun _ => none : Environ) f.GetEnvironmentKey = none) ∧
    Load (fun _ => none) ⟨true, true, [⟨"Optional", "*int", [], Value.intPtr none⟩]⟩
      = (none, ⟨true, true, [⟨"Optional", "*int", [], Value.intPtr none⟩]⟩) :=
  ⟨by decide,
    (C2_optional_field_never_not_found (fun _ => none)
      ⟨true, true, [⟨"Optional", "*int", [], Value.intPtr none⟩]⟩ rfl rfl).2.2 (by decide)⟩

/-! ## Parsed integers fit the `int` type -/

theorem ParseInt_range (s : String) :
    -(2 : Int) ^ 63 ≤ (ParseInt s).1 ∧ (ParseInt s).1 < 2 ^ 63 := by
  unfold ParseInt
  simp only [IntSize]
  split_ifs <;> norm_num at *
  all_goals first
    | omega
    | (rename_i h2 h1 h0
       first
         | (have a := h1 h0; omega)
         | (have a := h2 h0; omega))

theorem intOfInt64_of_range (v : Int) (h : -(2 : Int) ^ 63 ≤ v ∧ v < 2 ^ 63) :
    intOfInt64 v = v := by
  unfold intOfInt64
  norm_num at *
  omega

theorem intOfInt64_ParseInt (s : String) : intOfInt64 (ParseInt s).1 = (ParseInt s).1 :=
  intOfInt64_of_range _ (ParseInt_range s)

/-! ## The bound value, by source of the raw literal -/

theorem fieldResult_of_environment (env : Environ) (f : StructField) (v : String)
    (he : env f.GetEnvironmentKey = some v) (val : Value)
    (hv : coerced f.TypeName f.delimiter v = some val) :
    fieldResult env f = { f with Value := val } := by
  unfold fieldResult
  unfold coerced at hv
  split_ifs at hv with h1 h2 h3 h3b h4 h4b h5 h5b h6 h6b h7 h8 <;>
    simp only [Option.some.injEq, reduceCtorEq] at hv <;> subst hv
  · rw [loadField_string env [] f h1]
    cases hd : f.GetDefaultValue <;> simp [loadString, lookup, he, hd, StructField.SetString]
  · rw [loadField_stringPointer env [] f h2]
    cases hd : f.GetDefaultValue <;>
      simp [loadStringPointer, lookup, he, hd, StructField.SetStringPointer]
  · rw [loadField_bool env [] f h3]
    cases hd : f.GetDefaultValue <;>
      simp [loadBool, parseBoolEnvironment, lookup, he, hd, StructField.SetBool, h3b]
  · rw [loadField_boolPointer env [] f h4]
    cases hd : f.GetDefaultValue <;>
      simp [loadBoolPointer, parseBoolEnvironment, lookup, he, hd, StructField.SetBoolPointer,
        h4b]
  · rw [loadField_int env [] f h5]
    cases hd : f.GetDefaultValue <;>
      simp [loadInt, parseIntEnvironment, lookup, he, hd, StructField.SetInt, h5b,
        intOfInt64_ParseInt]
  · rw [loadField_intPointer env [] f h6]
    cases hd : f.GetDefaultValue <;>
      simp [loadIntPointer, parseIntEnvironment, lookup, he, hd, StructField.SetIntPointer,
        h6b, intOfInt64_ParseInt]
  · rw [loadField_stringSlice env [] f h7]
    cases hd : f.GetDefaultValue <;>
      simp [loadStringSlice, lookup, he, hd, StructField.SetStringSlice, StructField.delimiter]
  · rw [loadField_stringSlicePointer env [] f h8]
    cases hd : f.GetDefaultValue <;>
      simp [loadStringSlicePointer, lookup, he, hd, StructField.SetStringSlicePointer,
        StructField.delimiter, StructTagKeyDelimiter]

theorem loadField_of_default (env : Environ) (errs : LoadErrors) (f : StructField) (d : String)
    (he : env f.GetEnvironmentKey = none) (hd : f.GetDefaultValue = some d) (val : Value)
    (hv : coerced f.TypeName f.delimiter d = some val) :
    loadField env errs f = (errs, { f with Value := val }) := by
  unfold coerced at hv
  split_ifs at hv with h1 h2 h3 h3b h4 h4b h5 h5b h6 h6b h7 h8 <;>
    simp only [Option.some.injEq, reduceCtorEq] at hv <;> subst hv
  · rw [loadField_string env errs f h1]
    simp [loadString, lookup, he, hd, StructField.SetString]
  · rw [loadField_stringPointer env errs f h2]
    simp [loadStringPointer, lookup, he, hd, StructField.SetStringPointer]
  · rw [loadField_bool env errs f h3]
    simp [loadBool, parseBoolEnvironment, lookup, he, hd, StructField.SetBool, h3b]
  · rw [loadField_boolPointer env errs f h4]
    simp [loadBoolPointer, parseBoolEnvironment, lookup, he, hd, StructField.SetBoolPointer,
      h4b]
  · rw [loadField_int env errs f h5]
    simp [loadInt, parseIntEnvironment, lookup, he, hd, StructField.SetInt, h5b,
      intOfInt64_ParseInt]
  · rw [loadField_intPointer env errs f h6]
    simp [loadIntPointer, parseIntEnvironment, lookup, he, hd, StructField.SetIntPointer,
      h6b, intOfInt64_ParseInt]
  · rw [loadField_stringSlice env errs f h7]
    simp [loadStringSlice, lookup, he, hd, StructField.SetStringSlice, StructField.delimiter]
  · rw [loadField_stringSlicePointer env errs f h8]
    simp [loadStringSlicePointer, lookup, he, hd, StructField.SetStringSlicePointer,
      StructField.delimiter, StructTagKeyDelimiter]

theorem Load_field_at (env : Environ) (c : Configuration) (hp : c.IsPointer = true)
    (hs : c.IsStruct = true) (i : Nat) (f : StructField) (hf : c.Fields[i]? = some f) :
    (Load env c).2.Fields[i]? = some (fieldResult env f) := by
  rw [Load_eq env c hp hs]
  simp [List.getElem?_map, hf]

theorem coerced_isSupportedType (typeName delimiter raw : String) (val : Value)
    (h : coerced typeName delimiter raw = some val) : isSupportedType typeName := by
  unfold coerced at h
  unfold isSupportedType isRequiredType isOptionalType
  split_ifs at h <;> simp_all

/-- C3. For a field of a supported type whose environment key is defined with a
literal valid for the type, the field holds after Load the value coerced from
the environment literal (in pointer form for the optional types), whatever the
field's tag says about a default. -/
theorem C3_environment_value_bound (env : Environ) (c : Configuration)
    (hp : c.IsPointer = true) (hs : c.IsStruct = true) (i : Nat) (f : StructField)
    (hf : c.Fields[i]? = some f) (v : String) (he : env f.GetEnvironmentKey = some v)
    (val : Value) (hv : coerced f.TypeName f.delimiter v = some val) :
    (Load env c).2.Fields[i]? = some { f with Value := val } := by
  rw [Load_field_at env c hp hs i f hf, fieldResult_of_environment env f v he val hv]

/-- C3 at an `int` field with the unparseable default `nope` and the environment
value `-12345`. -/
theorem C3_environment_value_bound_witness :
    ([(⟨"N", "int", [("default", "nope")], Value.int 0⟩ : StructField)])[0]?
        = some ⟨"N", "int", [("default", "nope")], Value.int 0⟩ ∧
    (fun k => if k = "N" then some "-12345" else none : Environ)
        (StructField.GetEnvironmentKey ⟨"N", "int", [("default", "nope")], Value.int 0⟩)
        = some "-12345" ∧
    coerced "int" (StructField.delimiter ⟨"N", "int", [("default", "nope")], Value.int 0⟩)
        "-12345" = some (Value.int (-12345)) ∧
    (Load (fun k => if k = "N" then some "-12345" else none)
        ⟨true, true, [⟨"N", "int", [("default", "nope")], Value.int 0⟩]⟩).2.Fields[0]?
      = some ⟨"N", "int", [("default", "nope")], Value.int (-12345)⟩ :=
  ⟨rfl, by decide, by decide,
    C3_environment_value_bound (fun k => if k = "N" then some "-12345" else none)
      ⟨true, true, [⟨"N", "int", [("default", "nope")], Value.int 0⟩]⟩ rfl rfl 0
      ⟨"N", "int", [("default", "nope")], Value.int 0⟩ rfl "-12345" (by decide)
      (Value.int (-12345)) (by decide)⟩

/-- C4. For a field of a supported type whose environment key is not defined and
whose default tag is a literal valid for the type, the field holds after Load
the value coerced from the default literal, and its turn of the loop appends no
error to those collected so far. -/
theorem C4_default_value_bound (env : Environ) (c : Configuration)
    (hp : c.IsPointer = true) (hs : c.IsStruct = true) (i : Nat) (f : StructField)
    (hf : c.Fields[i]? = some f) (d : String) (he : env f.GetEnvironmentKey = none)
    (hd : f.GetDefaultValue = some d)
    (val : Value) (hv : coerced f.TypeName f.delimiter d = some val) :
    (Load env c).2.Fields[i]? = some { f with Value := val } ∧
    fieldErrors env f = [] ∧
    ∀ errs : LoadErrors, (loadField env errs f).1 = errs := by
  refine ⟨?_, ?_, ?_⟩
  · rw [Load_field_at env c hp hs i f hf]
    unfold fieldResult
    rw [loadField_of_default env [] f d he hd val hv]
  · unfold fieldErrors
    rw [loadField_of_default env [] f d he hd val hv]
  · intro errs
    rw [loadField_of_default env errs f d he hd val hv]

/-- C4 at a `*[]string` field with default `hi hi` and delimiter ` `, under an
empty environment. -/
theorem C4_default_value_bound_witness :
    ([(⟨"L", "*[]string", [("default", "hi hi"), ("delimiter", " ")],
        Value.stringSlicePtr none⟩ : StructField)])[0]?
      = some ⟨"L", "*[]string", [("default", "hi hi"), ("delimiter", " ")],
        Value.stringSlicePtr none⟩ ∧
    (Load (fun _ => none)
        ⟨true, true, [⟨"L", "*[]string", [("default", "hi hi"), ("delimiter", " ")],
          Value.stringSlicePtr none⟩]⟩).2.Fields[0]?
      = some ⟨"L", "*[]string", [("default", "hi hi"), ("delimiter", " ")],
          Value.stringSlicePtr (some (some ["hi", "hi"]))⟩ :=
  ⟨rfl,
    (C4_default_value_bound (fun _ => none)
      ⟨true, true, [⟨"L", "*[]string", [("default", "hi hi"), ("delimiter", " ")],
        Value.stringSlicePtr none⟩]⟩ rfl rfl 0
      ⟨"L", "*[]string", [("default", "hi hi"), ("delimiter", " ")],
        Value.stringSlicePtr none⟩ rfl "hi hi" rfl (by decide)
      (Value.stringSlicePtr (some (some ["hi", "hi"]))) (by decide)).1⟩

/-! ## The parsers accept only the literals the specification names -/

theorem parseUintLoop_ok_digits (cs : List Char) (n : Nat)
    (h : (parseUintLoop cs n).2 = none) : ∀ c ∈ cs, 48 ≤ c.toNat ∧ c.toNat ≤ 57 := by
  induction cs generalizing n with
  | nil => intro c hc; cases hc
  | cons d ds ih =>
    unfold parseUintLoop at h
    by_cases h1 : 48 ≤ d.toNat ∧ d.toNat ≤ 57
    · rw [if_pos h1] at h
      by_cases h2 : n ≥ maxUint64 / 10 + 1
      · rw [if_pos h2] at h
        cases h
      · rw [if_neg h2] at h
        by_cases h3 : n * 10 + (d.toNat - 48) > maxUint64
        · simp only [h3, if_true] at h
          cases h
        · simp only [h3, if_false] at h
          intro c hc
          rcases List.mem_cons.mp hc with hcd | hcd
          · rw [hcd]; exact h1
          · exact ih _ h c hcd
    · rw [if_neg h1] at h
      cases h

theorem ParseUint_ok_digits (cs : List Char) (h : (ParseUint cs).2 = none) :
    cs ≠ [] ∧ ∀ c ∈ cs, 48 ≤ c.toNat ∧ c.toNat ≤ 57 := by
  unfold ParseUint at h
  by_cases h1 : cs = []
  · rw [if_pos h1] at h
    cases h
  · rw [if_neg h1] at h
    exact ⟨h1, parseUintLoop_ok_digits cs 0 h⟩

theorem ParseUint_error_cases (cs : List Char) :
    (ParseUint cs).2 = none ∨ (ParseUint cs).2 = some NumError.syntaxErr ∨
      (ParseUint cs).2 = some NumError.rangeErr := by
  cases h : (ParseUint cs).2 with
  | none => exact Or.inl rfl
  | some e => cases e <;> simp

theorem parseUintLoop_range_value (cs : List Char) (n : Nat)
    (h : (parseUintLoop cs n).2 = some NumError.rangeErr) :
    (parseUintLoop cs n).1 = maxUint64 := by
  induction cs generalizing n with
  | nil => unfold parseUintLoop at h; cases h
  | cons d ds ih =>
    unfold parseUintLoop at h ⊢
    by_cases h1 : 48 ≤ d.toNat ∧ d.toNat ≤ 57
    · rw [if_pos h1] at h ⊢
      by_cases h2 : n ≥ maxUint64 / 10 + 1
      · rw [if_pos h2]
      · rw [if_neg h2] at h ⊢
        by_cases h3 : n * 10 + (d.toNat - 48) > maxUint64
        · simp only [h3, if_true]
        · simp only [h3, if_false] at h ⊢
          exact ih _ h
    · rw [if_neg h1] at h
      cases h

theorem ParseUint_range_value (cs : List Char)
    (h : (ParseUint cs).2 = some NumError.rangeErr) : (ParseUint cs).1 = maxUint64 := by
  unfold ParseUint at h ⊢
  by_cases h1 : cs = []
  · rw [if_pos h1] at h
    cases h
  · rw [if_neg h1] at h ⊢
    exact parseUintLoop_range_value cs 0 h

theorem ParseInt_ok_ParseUint (s : String) (h : (ParseInt s).2 = none) :
    (ParseUint (if s.data.head? = some '+' ∨ s.data.head? = some '-' then s.data.tail
      else s.data)).2 = none := by
  unfold ParseInt at h
  by_cases h0 : s.data = []
  · rw [if_pos h0] at h
    cases h
  · rw [if_neg h0] at h
    simp only at h
    generalize (if s.data.head? = some '+' ∨ s.data.head? = some '-' then s.data.tail
      else s.data) = body at h ⊢
    rcases ParseUint_error_cases body with hu | hu | hu
    · exact hu
    · rw [if_pos hu] at h
      cases h
    · exfalso
      have hv := ParseUint_range_value body hu
      have hne : ¬ (ParseUint body).2 = some NumError.syntaxErr := by rw [hu]; simp
      rw [if_neg hne, hv] at h
      cases hneg : decide (s.data.head? = some '-') <;>
        simp [hneg, maxUint64, IntSize] at h

theorem ParseInt_ok_decimal (s : String) (h : (ParseInt s).2 = none) :
    isDecimalInteger s := by
  unfold isDecimalInteger
  exact ParseUint_ok_digits _ (ParseInt_ok_ParseUint s h)

theorem ParseBool_ok_iff (s : String) : (ParseBool s).2 = none ↔ isBoolLiteral s := by
  unfold ParseBool isBoolLiteral
  simp only [List.mem_cons, List.mem_singleton, List.not_mem_nil, or_false]
  by_cases h1 : s = "1" ∨ s = "t" ∨ s = "T" ∨ s = "TRUE" ∨ s = "true" ∨ s = "True"
  · rw [if_pos h1]
    simp only [true_iff]
    tauto
  · rw [if_neg h1]
    by_cases h2 : s = "0" ∨ s = "f" ∨ s = "F" ∨ s = "FALSE" ∨ s = "false" ∨ s = "False"
    · rw [if_pos h2]
      simp only [true_iff]
      tauto
    · rw [if_neg h2]
      simp only [reduceCtorEq, false_iff]
      tauto


theorem coerced_none_of_not_literal (typeName delimiter raw : String)
    (ht : isParsedType typeName) (h : ¬ isLiteralOfType typeName raw) :
    coerced typeName delimiter raw = none := by
  unfold isLiteralOfType at h
  unfold coerced
  rcases ht with ht | ht | ht | ht <;> subst ht
  · have hb : ¬ (ParseBool raw).2 = none := fun hp => h (by simpa using (ParseBool_ok_iff raw).mp hp)
    simp [hb]
  · have hb : ¬ (ParseBool raw).2 = none := fun hp => h (by simpa using (ParseBool_ok_iff raw).mp hp)
    simp [hb]
  · have hb : ¬ (ParseInt raw).2 = none := fun hp => h (by simpa using ParseInt_ok_decimal raw hp)
    simp [hb]
  · have hb : ¬ (ParseInt raw).2 = none := fun hp => h (by simpa using ParseInt_ok_decimal raw hp)
    simp [hb]

/-! ## Parse failures -/

theorem fieldErrors_parsed_codes (env : Environ) (f : StructField)
    (ht : isParsedType f.TypeName) (raw : String) (hraw : rawValue env f = some raw) :
    ∀ e ∈ fieldErrors env f, e.Code = ErrorLoadInvalidValue := by
  unfold fieldErrors
  unfold rawValue at hraw
  rcases ht with h | h | h | h
  · rw [loadField_bool env [] f h]
    unfold loadBool parseBoolEnvironment
    cases he : env f.GetEnvironmentKey <;> cases hd : f.GetDefaultValue <;>
      simp [lookup, he, hd] at hraw ⊢ <;> split_ifs <;> simp
  · rw [loadField_boolPointer env [] f h]
    unfold loadBoolPointer parseBoolEnvironment
    cases he : env f.GetEnvironmentKey <;> cases hd : f.GetDefaultValue <;>
      simp [lookup, he, hd] at hraw ⊢ <;> split_ifs <;> simp
  · rw [loadField_int env [] f h]
    unfold loadInt parseIntEnvironment
    cases he : env f.GetEnvironmentKey <;> cases hd : f.GetDefaultValue <;>
      simp [lookup, he, hd] at hraw ⊢ <;> split_ifs <;> simp
  · rw [loadField_intPointer env [] f h]
    unfold loadIntPointer parseIntEnvironment
    cases he : env f.GetEnvironmentKey <;> cases hd : f.GetDefaultValue <;>
      simp [lookup, he, hd] at hraw ⊢ <;> split_ifs <;> simp

theorem fieldErrors_invalid_ne_nil (env : Environ) (f : StructField)
    (ht : isParsedType f.TypeName) (raw : String) (hraw : rawValue env f = some raw)
    (hbad : coerced f.TypeName f.delimiter raw = none) :
    fieldErrors env f ≠ [] := by
  unfold fieldErrors
  unfold rawValue at hraw
  unfold coerced at hbad
  rcases ht with h | h | h | h
  · rw [loadField_bool env [] f h]
    unfold loadBool parseBoolEnvironment
    cases he : env f.GetEnvironmentKey <;> cases hd : f.GetDefaultValue <;>
      simp [lookup, he, hd, h] at hraw hbad ⊢ <;> subst hraw <;> simp [hbad]
  · rw [loadField_boolPointer env [] f h]
    unfold loadBoolPointer parseBoolEnvironment
    cases he : env f.GetEnvironmentKey <;> cases hd : f.GetDefaultValue <;>
      simp [lookup, he, hd, h] at hraw hbad ⊢ <;> subst hraw <;> simp [hbad]
  · rw [loadField_int env [] f h]
    unfold loadInt parseIntEnvironment
    cases he : env f.GetEnvironmentKey <;> cases hd : f.GetDefaultValue <;>
      simp [lookup, he, hd, h] at hraw hbad ⊢ <;> subst hraw <;> simp [hbad]
  · rw [loadField_intPointer env [] f h]
    unfold loadIntPointer parseIntEnvironment
    cases he : env f.GetEnvironmentKey <;> cases hd : f.GetDefaultValue <;>
      simp [lookup, he, hd, h] at hraw hbad ⊢ <;> subst hraw <;> simp [hbad]

/-- C5. For a bool, *bool, int or *int field whose effective raw value (the
environment value if the key is defined, otherwise the default literal) is not a
valid literal of the type (it is not one of the standard boolean literals, resp.
not a base-10 signed integer, or more generally the parser of the type rejects
it), Load returns a LoadErrors whose GetCode has the
ErrorLoadInvalidValue bit set; when the field is the only field of the record
and only one of environment value and default is present, GetCode is exactly
ErrorLoadInvalidValue. -/
theorem C5_invalid_value_reported (env : Environ) (c : Configuration) (f : StructField)
    (hp : c.IsPointer = true) (hs : c.IsStruct = true) (hf : f ∈ c.Fields)
    (ht : isParsedType f.TypeName) (raw : String) (hraw : rawValue env f = some raw)
    (hbad : ¬ isLiteralOfType f.TypeName raw ∨ coerced f.TypeName f.delimiter raw = none) :
    ∃ es : LoadErrors, (Load env c).1 = some es ∧
      Int.land es.GetCode ErrorLoadInvalidValue = ErrorLoadInvalidValue ∧
      (c.Fields = [f] → (env f.GetEnvironmentKey = none ∨ f.GetDefaultValue = none) →
        es.GetCode = ErrorLoadInvalidValue) := by
  have hbad2 : coerced f.TypeName f.delimiter raw = none :=
    hbad.elim (coerced_none_of_not_literal _ _ _ ht) id
  have hne := fieldErrors_invalid_ne_nil env f ht raw hraw hbad2
  have hall := fieldErrors_parsed_codes env f ht raw hraw
  obtain ⟨e, he⟩ := List.exists_mem_of_ne_nil _ hne
  have hmem : e ∈ c.Fields.flatMap (fieldErrors env) := by
    rw [List.mem_flatMap]
    exact ⟨f, hf, he⟩
  have hne2 : c.Fields.flatMap (fieldErrors env) ≠ [] := List.ne_nil_of_mem hmem
  refine ⟨c.Fields.flatMap (fieldErrors env), ?_, ?_, ?_⟩
  · rw [Load_eq env c hp hs, if_neg hne2]
  · rw [ErrorLoadInvalidValue_eq]
    exact GetCode_land_of_mem _ e 4 hmem (by rw [hall e he]; exact ErrorLoadInvalidValue_eq)
  · intro hfs _
    rw [hfs]
    simp only [List.flatMap_cons, List.flatMap_nil, List.append_nil]
    exact GetCode_of_all_eq _ _ hne hall

/-- C5 at the record `Error *bool` with the environment value `nope` and no
default. -/
theorem C5_invalid_value_reported_witness :
    isParsedType "*bool" ∧
    rawValue (fun k => if k = "TEST_ENV_INVALID" then some "nope" else none)
      ⟨"Error", "*bool", [("env", "TEST_ENV_INVALID")], Value.boolPtr none⟩ = some "nope" ∧
    (¬ isLiteralOfType "*bool" "nope" ∨ coerced "*bool" "," "nope" = none) ∧
    ∃ es : LoadErrors,
      (Load (fun k => if k = "TEST_ENV_INVALID" then some "nope" else none)
        ⟨true, true, [⟨"Error", "*bool", [("env", "TEST_ENV_INVALID")],
          Value.boolPtr none⟩]⟩).1 = some es ∧
      Int.land es.GetCode ErrorLoadInvalidValue = ErrorLoadInvalidValue ∧
      (([⟨"Error", "*bool", [("env", "TEST_ENV_INVALID")], Value.boolPtr none⟩] :
          List StructField)
          = [⟨"Error", "*bool", [("env", "TEST_ENV_INVALID")], Value.boolPtr none⟩] →
        ((fun k => if k = "TEST_ENV_INVALID" then some "nope" else none : Environ)
            (StructField.GetEnvironmentKey
              ⟨"Error", "*bool", [("env", "TEST_ENV_INVALID")], Value.boolPtr none⟩) = none ∨
          StructField.GetDefaultValue
            ⟨"Error", "*bool", [("env", "TEST_ENV_INVALID")], Value.boolPtr none⟩ = none) →
        es.GetCode = ErrorLoadInvalidValue) :=
  ⟨by decide, by decide, Or.inl (by decide),
    C5_invalid_value_reported (fun k => if k = "TEST_ENV_INVALID" then some "nope" else none)
      ⟨true, true, [⟨"Error", "*bool", [("env", "TEST_ENV_INVALID")], Value.boolPtr none⟩]⟩
      ⟨"Error", "*bool", [("env", "TEST_ENV_INVALID")], Value.boolPtr none⟩
      rfl rfl (by decide) (by decide) "nope" (by decide) (Or.inl (by decide))⟩

/-! ## Substrings of messages -/

theorem contains_refl (s : String) : Contains s s := List.infix_refl _

theorem contains_append_left (s t sub : String) (h : Contains s sub) :
    Contains (s ++ t) sub := by
  unfold Contains at *
  obtain ⟨a, b, hab⟩ := h
  refine ⟨a, b ++ t.data, ?_⟩
  rw [String.data_append, ← hab]
  simp [List.append_assoc]

theorem contains_append_right (s t sub : String) (h : Contains t sub) :
    Contains (s ++ t) sub := by
  unfold Contains at *
  obtain ⟨a, b, hab⟩ := h
  refine ⟨s.data ++ a, b, ?_⟩
  rw [String.data_append, ← hab]
  simp [List.append_assoc]

theorem contains_trans (s t u : String) (h1 : Contains s t) (h2 : Contains t u) :
    Contains s u := List.IsInfix.trans h2 h1

theorem invalidTypeMessage_contains_name (name key typeName : String) :
    Contains (invalidTypeMessage name key typeName) name := by
  unfold invalidTypeMessage
  iterate 5 apply contains_append_left
  apply contains_append_right
  exact contains_refl _

theorem invalidTypeMessage_contains_type (name key typeName : String) :
    Contains (invalidTypeMessage name key typeName) typeName := by
  unfold invalidTypeMessage
  apply contains_append_left
  apply contains_append_right
  exact contains_refl _

theorem notFoundMessage_contains_name (name key kind : String) :
    Contains (notFoundMessage name key kind) name := by
  unfold notFoundMessage
  iterate 5 apply contains_append_left
  apply contains_append_right
  exact contains_refl _

theorem mem_Load_errors (env : Environ) (c : Configuration) (hp : c.IsPointer = true)
    (hs : c.IsStruct = true) (f : StructField) (hf : f ∈ c.Fields) (e : LoadError)
    (he : e ∈ fieldErrors env f) :
    (Load env c).1 = some (c.Fields.flatMap (fieldErrors env)) ∧
      e ∈ c.Fields.flatMap (fieldErrors env) := by
  have hmem : e ∈ c.Fields.flatMap (fieldErrors env) := by
    rw [List.mem_flatMap]
    exact ⟨f, hf, he⟩
  refine ⟨?_, hmem⟩
  rw [Load_eq env c hp hs, if_neg (List.ne_nil_of_mem hmem)]

/-- C6. For a field whose declared type is not one of the eight supported types,
the turn of the loop appends exactly one error, with code ErrorLoadInvalidType
and a message that contains the field's name and its type, and leaves the field
as it was, under every environment and whatever the tag holds; so after Load on
a record with that field the field is unchanged and the error is in the returned
list. -/
theorem C6_unsupported_type (env : Environ) (f : StructField)
    (ht : ¬ isSupportedType f.TypeName) :
    (∀ errs : LoadErrors, ∃ e : LoadError,
      loadField env errs f = (errs ++ [e], f) ∧ e.Code = ErrorLoadInvalidType ∧
      Contains e.Message f.Name ∧ Contains e.Message f.TypeName) ∧
    (∀ (c : Configuration) (i : Nat), c.IsPointer = true → c.IsStruct = true →
      c.Fields[i]? = some f →
      (Load env c).2.Fields[i]? = some f ∧
      ∃ es : LoadErrors, (Load env c).1 = some es ∧
        ∃ e ∈ es, e.Code = ErrorLoadInvalidType ∧
          Contains e.Message f.Name ∧ Contains e.Message f.TypeName) := by
  have hload : ∀ errs : LoadErrors, loadField env errs f
      = (errs ++ [⟨ErrorLoadInvalidType,
          invalidTypeMessage f.Name f.GetEnvironmentKey f.TypeName⟩], f) := by
    intro errs
    rw [loadField_invalidType env errs f ht]
    rfl
  refine ⟨?_, ?_⟩
  · intro errs
    exact ⟨_, hload errs, rfl, invalidTypeMessage_contains_name _ _ _,
      invalidTypeMessage_contains_type _ _ _⟩
  · intro c i hp hs hf
    refine ⟨?_, ?_⟩
    · rw [Load_field_at env c hp hs i f hf]
      unfold fieldResult
      rw [hload]
    · have hfe : (⟨ErrorLoadInvalidType,
          invalidTypeMessage f.Name f.GetEnvironmentKey f.TypeName⟩ : LoadError)
          ∈ fieldErrors env f := by
        unfold fieldErrors
        rw [hload]
        simp
      have hmem := mem_Load_errors env c hp hs f (List.getElem?_mem hf) _ hfe
      exact ⟨_, hmem.1, _, hmem.2, rfl, invalidTypeMessage_contains_name _ _ _,
        invalidTypeMessage_contains_type _ _ _⟩

/-- C6 at the field `Float float32` with a default tag, an environment value and
errors already collected. -/
theorem C6_unsupported_type_witness :
    ¬ isSupportedType "float32" ∧
    ∃ e : LoadError,
      loadField (fun k => if k = "FLOAT" then some "1.5" else none)
          [⟨ErrorLoadNotFound, "earlier"⟩]
          ⟨"Float", "float32", [("default", "2.5")], Value.other "0"⟩
        = ([⟨ErrorLoadNotFound, "earlier"⟩] ++ [e],
            ⟨"Float", "float32", [("default", "2.5")], Value.other "0"⟩) ∧
      e.Code = ErrorLoadInvalidType ∧ Contains e.Message "Float" ∧
      Contains e.Message "float32" :=
  ⟨by decide,
    (C6_unsupported_type (fun k => if k = "FLOAT" then some "1.5" else none)
      ⟨"Float", "float32", [("default", "2.5")], Value.other "0"⟩ (by decide)).1
      [⟨ErrorLoadNotFound, "earlier"⟩]⟩

/-! ## Combined messages -/

theorem messages_foldl (es : LoadErrors) (init : List String) :
    List.foldl (fun messages err => messages ++ [err.Message]) init es
      = init ++ es.map (fun e => e.Message) := by
  induction es generalizing init with
  | nil => simp
  | cons e es ih => simp [ih]

theorem messages_eq_map (es : LoadErrors) :
    LoadErrors.messages es = es.map (fun e => e.Message) := by
  unfold LoadErrors.messages
  rw [messages_foldl]
  rfl

theorem Error_foldl (es : LoadErrors) (init : Int × List String) :
    List.foldl (fun acc err => (Int.lor acc.1 err.Code, acc.2 ++ [err.Message])) init es
      = (Int.lor init.1 (LoadErrors.GetCode es), init.2 ++ es.map (fun e => e.Message)) := by
  induction es generalizing init with
  | nil =>
    simp only [List.foldl_nil, GetCode_nil, List.map_nil, List.append_nil]
    have : Int.lor init.1 0 = init.1 := by
      apply int_eq_of_testBit_eq
      intro k
      simp [Int.testBit_lor, int_testBit_zero]
    rw [this]
  | cons e es ih =>
    simp only [List.foldl_cons, ih, GetCode_cons, List.map_cons, int_lor_assoc]
    simp

theorem Error_eq (es : LoadErrors) :
    LoadErrors.Error es
      = "Load/err[" ++ toString (LoadErrors.GetCode es) ++ "]: ['"
          ++ Join (es.map (fun e => e.Message)) "', '" ++ "']" := by
  unfold LoadErrors.Error
  simp only [Error_foldl, int_zero_lor, List.nil_append]

theorem Join_contains (l : List String) (sep m : String) (h : m ∈ l) :
    Contains (Join l sep) m := by
  induction l with
  | nil => cases h
  | cons a l ih =>
    cases l with
    | nil =>
      simp only [List.mem_singleton] at h
      subst h
      exact contains_refl _
    | cons b rest =>
      unfold Join
      rcases List.mem_cons.mp h with h1 | h1
      · subst h1
        apply contains_append_left
        apply contains_append_left
        exact contains_refl _
      · apply contains_append_right
        exact ih h1

theorem GetMessage_contains (es : LoadErrors) (e : LoadError) (he : e ∈ es) :
    Contains (LoadErrors.GetMessage es) e.Message := by
  unfold LoadErrors.GetMessage
  rw [messages_eq_map]
  apply contains_append_left
  apply contains_append_right
  exact Join_contains _ _ _ (List.mem_map.mpr ⟨e, he, rfl⟩)

theorem Error_contains (es : LoadErrors) (e : LoadError) (he : e ∈ es) :
    Contains (LoadErrors.Error es) e.Message := by
  rw [Error_eq]
  apply contains_append_left
  apply contains_append_right
  exact Join_contains _ _ _ (List.mem_map.mpr ⟨e, he, rfl⟩)

/-! ## Prerequisites -/

theorem prereqErrors_eq (c : Configuration) :
    prereqErrors c =
      (if c.IsPointer = false then
        [(⟨ErrorLoadPrereqs, "failed to receive a valid pointer"⟩ : LoadError)] else []) ++
      (if c.IsStruct = false then
        [(⟨ErrorLoadPrereqs, "failed to receive a valid struct"⟩ : LoadError)] else []) := by
  unfold prereqErrors
  cases c.IsPointer <;> cases c.IsStruct <;> simp

theorem prereqErrors_codes (c : Configuration) :
    ∀ e ∈ prereqErrors c, e.Code = ErrorLoadPrereqs := by
  rw [prereqErrors_eq]
  cases c.IsPointer <;> cases c.IsStruct <;> simp

theorem prereqErrors_ne_nil (c : Configuration)
    (h : c.IsPointer = false ∨ c.IsStruct = false) : prereqErrors c ≠ [] := by
  rw [prereqErrors_eq]
  rcases h with h | h <;> simp [h]

theorem Load_prereqs (env : Environ) (c : Configuration)
    (h : c.IsPointer = false ∨ c.IsStruct = false) :
    Load env c = (some (prereqErrors c), c) := by
  unfold Load
  have := List.length_pos.mpr (prereqErrors_ne_nil c h)
  simp only [gt_iff_lt, this, if_true]

/-- C7. If the argument of Load is not a pointer or does not reference a struct,
Load returns a non-nil LoadErrors holding exactly one ErrorLoadPrereqs error per
violated precondition (the text `valid pointer` for not a pointer, then
`valid struct` for not a struct) and nothing else, so that GetCode equals
ErrorLoadPrereqs; no field is processed: the result does not depend on the
environment and the argument is left as it was. -/
theorem C7_prerequisites (env : Environ) (c : Configuration)
    (h : c.IsPointer = false ∨ c.IsStruct = false) :
    (∃ es : LoadErrors, (Load env c).1 = some es ∧ es ≠ [] ∧
      es = (if c.IsPointer = false then
              [(⟨ErrorLoadPrereqs, "failed to receive a valid pointer"⟩ : LoadError)]
            else []) ++
           (if c.IsStruct = false then
              [(⟨ErrorLoadPrereqs, "failed to receive a valid struct"⟩ : LoadError)]
            else []) ∧
      (∀ e ∈ es, e.Code = ErrorLoadPrereqs) ∧
      es.GetCode = ErrorLoadPrereqs ∧
      (c.IsPointer = false → Contains es.Error "valid pointer") ∧
      (c.IsStruct = false → Contains es.Error "valid struct")) ∧
    (Load env c).2 = c ∧
    ∀ env2 : Environ, Load env2 c = Load env c := by
  refine ⟨⟨prereqErrors c, ?_, prereqErrors_ne_nil c h, prereqErrors_eq c,
    prereqErrors_codes c, ?_, ?_, ?_⟩, ?_, ?_⟩
  · rw [Load_prereqs env c h]
  · exact GetCode_of_all_eq _ _ (prereqErrors_ne_nil c h) (prereqErrors_codes c)
  · intro hp
    have hmem : (⟨ErrorLoadPrereqs, "failed to receive a valid pointer"⟩ : LoadError)
        ∈ prereqErrors c := by
      rw [prereqErrors_eq, hp]
      simp
    exact contains_trans _ _ _ (Error_contains _ _ hmem) (by decide)
  · intro hs
    have hmem : (⟨ErrorLoadPrereqs, "failed to receive a valid struct"⟩ : LoadError)
        ∈ prereqErrors c := by
      rw [prereqErrors_eq, hs]
      simp
    exact contains_trans _ _ _ (Error_contains _ _ hmem) (by decide)
  · rw [Load_prereqs env c h]
  · intro env2
    rw [Load_prereqs env c h, Load_prereqs env2 c h]

/-- C7 at a struct passed by value, with one field that would otherwise be
loaded from the environment. -/
theorem C7_prerequisites_witness :
    ((false = false ∨ true = false) ∧
    (Load (fun _ => some "1") ⟨false, true, [⟨"A", "int", [], Value.int 0⟩]⟩).1
      = some [⟨ErrorLoadPrereqs, "failed to receive a valid pointer"⟩]) ∧
    (Load (fun _ => some "1") ⟨false, true, [⟨"A", "int", [], Value.int 0⟩]⟩).2
      = ⟨false, true, [⟨"A", "int", [], Value.int 0⟩]⟩ :=
  ⟨⟨Or.inl rfl, by
      obtain ⟨es, h1, _, h3, _⟩ :=
        (C7_prerequisites (fun _ => some "1") ⟨false, true, [⟨"A", "int", [], Value.int 0⟩]⟩
          (Or.inl rfl)).1
      rw [h1, h3]
      rfl⟩,
    (C7_prerequisites (fun _ => some "1") ⟨false, true, [⟨"A", "int", [], Value.int 0⟩]⟩
      (Or.inl rfl)).2.1⟩

/-! ## Aggregation over the fields -/

/-- C8. Load never stops early: for a record that passes the prerequisites the
loop, started from any errors, ends with those errors followed by the errors
each field yields on its own, in declaration order, and with every field bound
as it is on its own; so the error list of Load is that concatenation and the
bound value and the errors of a field do not depend on the other fields. In
particular a record with an unsupported-type field and a required field with no
value yields one LoadErrors whose GetCode includes ErrorLoadInvalidType and
ErrorLoadNotFound and whose GetMessage and Error texts contain the names of both
fields. -/
theorem C8_all_fields_processed (env : Environ) (c : Configuration)
    (hp : c.IsPointer = true) (hs : c.IsStruct = true) :
    (∀ errs : LoadErrors, loadFields env errs c.Fields
      = (errs ++ c.Fields.flatMap (fun f => (loadField env [] f).1),
         c.Fields.map (fun f => (loadField env [] f).2))) ∧
    (Load env c).2.Fields = c.Fields.map (fun f => (loadField env [] f).2) ∧
    (Load env c).1 =
      (if c.Fields.flatMap (fun f => (loadField env [] f).1) = [] then none
       else some (c.Fields.flatMap (fun f => (loadField env [] f).1))) ∧
    (∀ u r : StructField, u ∈ c.Fields → r ∈ c.Fields →
      ¬ isSupportedType u.TypeName → isRequiredType r.TypeName →
      r.GetDefaultValue = none → env r.GetEnvironmentKey = none →
      ∃ es : LoadErrors, (Load env c).1 = some es ∧
        Int.land es.GetCode ErrorLoadInvalidType = ErrorLoadInvalidType ∧
        Int.land es.GetCode ErrorLoadNotFound = ErrorLoadNotFound ∧
        Contains es.GetMessage u.Name ∧ Contains es.GetMessage r.Name ∧
        Contains es.Error u.Name ∧ Contains es.Error r.Name) := by
  refine ⟨fun errs => loadFields_eq env errs c.Fields, ?_, ?_, ?_⟩
  · rw [Load_eq env c hp hs]
    rfl
  · rw [Load_eq env c hp hs]
    rfl
  · intro u r hu hr htu htr hd he
    obtain ⟨kind, hk⟩ := fieldErrors_notFound env r htr hd he
    have hre : (⟨ErrorLoadNotFound, notFoundMessage r.Name r.GetEnvironmentKey kind⟩ : LoadError)
        ∈ fieldErrors env r := by
      rw [hk]
      exact List.mem_singleton_self _
    have hue : (⟨ErrorLoadInvalidType,
        invalidTypeMessage u.Name u.GetEnvironmentKey u.TypeName⟩ : LoadError)
        ∈ fieldErrors env u := by
      unfold fieldErrors
      rw [loadField_invalidType env [] u htu]
      simp [loadInvalidType, lookup]
    obtain ⟨hload, hrm⟩ := mem_Load_errors env c hp hs r hr _ hre
    obtain ⟨_, hum⟩ := mem_Load_errors env c hp hs u hu _ hue
    refine ⟨_, hload, ?_, ?_, ?_, ?_, ?_, ?_⟩
    · rw [ErrorLoadInvalidType_eq]
      exact GetCode_land_of_mem _ _ 3 hum ErrorLoadInvalidType_eq
    · rw [ErrorLoadNotFound_eq]
      exact GetCode_land_of_mem _ _ 2 hrm ErrorLoadNotFound_eq
    · exact contains_trans _ _ _ (GetMessage_contains _ _ hum)
        (invalidTypeMessage_contains_name _ _ _)
    · exact contains_trans _ _ _ (GetMessage_contains _ _ hrm)
        (notFoundMessage_contains_name _ _ _)
    · exact contains_trans _ _ _ (Error_contains _ _ hum)
        (invalidTypeMessage_contains_name _ _ _)
    · exact contains_trans _ _ _ (Error_contains _ _ hrm)
        (notFoundMessage_contains_name _ _ _)

/-- C8 at the record `Float float32; String string` under an empty environment:
both errors are returned, in declaration order. -/
theorem C8_all_fields_processed_witness :
    (Load (fun _ => none)
      ⟨true, true, [⟨"Float", "float32", [], Value.other "0"⟩,
        ⟨"String", "string", [], Value.string ""⟩]⟩).1
      = some [⟨ErrorLoadInvalidType, "failed to load 'Float' (via \"$\x7bFLOAT\x7d\") of type 'float32'"⟩,
          ⟨ErrorLoadNotFound, "failed to load 'String' via \"$\x7bSTRING\x7d\" (string)"⟩] :=
  (C8_all_fields_processed (fun _ => none)
    ⟨true, true, [⟨"Float", "float32", [], Value.other "0"⟩,
      ⟨"String", "string", [], Value.string ""⟩]⟩ rfl rfl).2.2.1.trans (by decide)

/-- C9. Load returns nil exactly when no error was collected, neither by the
prerequisite checks nor by the loop over the fields; a non-nil result is the
list of the collected errors and has at least one element. -/
theorem C9_nil_iff_no_errors (env : Environ) (c : Configuration) :
    ((Load env c).1 = none ↔ collectedErrors env c = []) ∧
    ((Load env c).1 = none ↔
      prereqErrors c = [] ∧ (loadFields env [] c.Fields).1 = []) ∧
    (∀ es : LoadErrors, (Load env c).1 = some es →
      es = collectedErrors env c ∧ es ≠ [] ∧ 0 < es.length) := by
  unfold Load collectedErrors
  by_cases h1 : (prereqErrors c).length > 0
  · have hne : prereqErrors c ≠ [] := List.length_pos.mp h1
    simp only [h1, if_true]
    refine ⟨by simp [hne], by simp [hne], ?_⟩
    intro es hes
    simp only [Option.some.injEq] at hes
    subst hes
    exact ⟨rfl, hne, h1⟩
  · have hnil : prereqErrors c = [] := by
      cases hpe : prereqErrors c with
      | nil => rfl
      | cons a l => rw [hpe] at h1; simp at h1
    simp only [h1, if_false, hnil]
    by_cases h2 : (loadFields env [] c.Fields).1.length > 0
    · have hne : (loadFields env [] c.Fields).1 ≠ [] := List.length_pos.mp h2
      simp only [h2, if_true]
      refine ⟨by simp [hne], by simp [hne], ?_⟩
      intro es hes
      have hes2 : (loadFields env [] c.Fields).1 = es := Option.some.inj hes
      subst hes2
      exact ⟨rfl, hne, h2⟩
    · have hnil2 : (loadFields env [] c.Fields).1 = [] := by
        cases hpe : (loadFields env [] c.Fields).1 with
        | nil => rfl
        | cons a l => rw [hpe] at h2; simp at h2
      simp only [h2, if_false, hnil2]
      refine ⟨by simp, by simp, ?_⟩
      intro es hes
      simp at hes

/-- C10. GetCode of a list is the bitwise or of the codes of its members: bit by
bit it is set exactly when some member has it, it is 0 for the empty list and
the code of the head or-ed with the code of the rest otherwise; so for a
single-bit flag the test `GetCode & f == f` succeeds exactly when some member
has the bit (the flags `2 ^ k`, and the sign bit `-2 ^ 63` of a 64-bit int for
codes within the 64-bit range), and GetCode of a concatenation is the bitwise or
of the two codes. -/
theorem C10_GetCode_bitwise_or (es es2 : LoadErrors) (e : LoadError) (k : Nat) :
    LoadErrors.GetCode [] = 0 ∧
    LoadErrors.GetCode (e :: es) = Int.lor e.Code (LoadErrors.GetCode es) ∧
    es.GetCode = (es.map (fun x => x.Code)).foldr Int.lor 0 ∧
    Int.testBit es.GetCode k = es.any (fun x => Int.testBit x.Code k) ∧
    (Int.land es.GetCode (2 ^ k) = 2 ^ k ↔ ∃ x ∈ es, Int.land x.Code (2 ^ k) = 2 ^ k) ∧
    ((∀ x ∈ es, -(2 : Int) ^ 63 ≤ x.Code ∧ x.Code < 2 ^ 63) →
      (Int.land es.GetCode (-(2 : Int) ^ 63) = -(2 : Int) ^ 63 ↔
        ∃ x ∈ es, Int.land x.Code (-(2 : Int) ^ 63) = -(2 : Int) ^ 63)) ∧
    (es ++ es2).GetCode = Int.lor es.GetCode es2.GetCode := by
  refine ⟨GetCode_nil, GetCode_cons e es, ?_, GetCode_testBit es k, GetCode_land_iff es k,
    GetCode_land_minInt64_iff es, GetCode_append es es2⟩
  induction es with
  | nil => rfl
  | cons x xs ih => rw [GetCode_cons, ih]; rfl

/-! ## Order of the member messages -/

theorem Join_cons_of_ne_nil (a : String) (l : List String) (sep : String) (h : l ≠ []) :
    Join (a :: l) sep = a ++ sep ++ Join l sep := by
  cases l with
  | nil => exact absurd rfl h
  | cons b rest => rfl

theorem Join_append_cons (l1 : List String) (m : String) (l2 : List String) (sep : String) :
    ∃ p : String, Join (l1 ++ m :: l2) sep
      = p ++ m ++ (if l2 = [] then "" else sep ++ Join l2 sep) := by
  induction l1 with
  | nil =>
    refine ⟨"", ?_⟩
    by_cases h : l2 = []
    · subst h
      simp [Join]
    · rw [List.nil_append, Join_cons_of_ne_nil m l2 sep h, if_neg h]
      simp [String.append_assoc]
  | cons a l1 ih =>
    obtain ⟨p, hp⟩ := ih
    refine ⟨a ++ sep ++ p, ?_⟩
    rw [List.cons_append, Join_cons_of_ne_nil a _ sep (by simp), hp]
    simp [String.append_assoc]

theorem Join_two_in_order (a : List String) (x : String) (b : List String) (y : String)
    (c : List String) (sep : String) :
    ∃ p q r : String, Join (a ++ x :: (b ++ y :: c)) sep = p ++ x ++ q ++ y ++ r := by
  obtain ⟨p, hp⟩ := Join_append_cons a x (b ++ y :: c) sep
  obtain ⟨p2, hp2⟩ := Join_append_cons b y c sep
  refine ⟨p, sep ++ p2, if c = [] then "" else sep ++ Join c sep, ?_⟩
  rw [hp, if_neg (by simp), hp2]
  simp [String.append_assoc]

theorem LoadError_Error_contains (e : LoadError) :
    Contains e.Error (toString e.Code) ∧ Contains e.Error e.Message := by
  unfold LoadError.Error
  refine ⟨?_, ?_⟩
  · apply contains_append_left
    apply contains_append_left
    apply contains_append_right
    exact contains_refl _
  · apply contains_append_right
    exact contains_refl _

theorem GetMessage_eq (es : LoadErrors) :
    LoadErrors.GetMessage es = "['" ++ Join (es.map (fun e => e.Message)) "', '" ++ "']" := by
  unfold LoadErrors.GetMessage
  rw [messages_eq_map]

/-- C11. Every member message of a LoadErrors list occurs in GetMessage and in
Error of the list, and the member messages occur there in list order: for two
members, the earlier before the later; for a single LoadError, Error contains
the decimal rendering of its Code and its Message. -/
theorem C11_member_messages (es : LoadErrors) (e : LoadError) :
    (∀ x ∈ es, Contains es.GetMessage x.Message ∧ Contains es.Error x.Message) ∧
    (∀ (a b c : LoadErrors) (x y : LoadError), es = a ++ x :: (b ++ y :: c) →
      (∃ p q r : String, es.GetMessage = p ++ x.Message ++ q ++ y.Message ++ r) ∧
      (∃ p q r : String, es.Error = p ++ x.Message ++ q ++ y.Message ++ r)) ∧
    Contains e.Error (toString e.Code) ∧ Contains e.Error e.Message := by
  refine ⟨fun x hx => ⟨GetMessage_contains es x hx, Error_contains es x hx⟩, ?_,
    LoadError_Error_contains e⟩
  intro a b c x y hes
  have hmap : es.map (fun e => e.Message)
      = a.map (fun e => e.Message) ++ x.Message
          :: (b.map (fun e => e.Message) ++ y.Message :: c.map (fun e => e.Message)) := by
    rw [hes]
    simp
  obtain ⟨p, q, r, h⟩ := Join_two_in_order (a.map (fun e => e.Message)) x.Message
    (b.map (fun e => e.Message)) y.Message (c.map (fun e => e.Message)) "', '"
  refine ⟨⟨"['" ++ p, q, r ++ "']", ?_⟩, ⟨"Load/err[" ++ toString es.GetCode ++ "]: ['" ++ p, q,
    r ++ "']", ?_⟩⟩
  · rw [GetMessage_eq, hmap, h]
    simp [String.append_assoc]
  · rw [Error_eq, hmap, h]
    simp [String.append_assoc]

/-- C18. For every LoadErrors list, Error is the text `Load/err[`, the decimal
rendering of GetCode, the text `]: ` and then GetMessage: the aggregation
inlined in Error agrees with GetCode and GetMessage, also on the empty list. -/
theorem C18_Error_agrees (es : LoadErrors) :
    es.Error = "Load/err[" ++ toString es.GetCode ++ "]: " ++ es.GetMessage ∧
    LoadErrors.Error [] = "Load/err[0]: ['']" := by
  refine ⟨?_, by decide⟩
  rw [Error_eq, GetMessage_eq]
  have h : ("]: ['" : String) = "]: " ++ "['" := by decide
  simp only [String.append_assoc]
  rw [h, String.append_assoc]

/-! ## The four flags -/

theorem flag_land_flag (a b : Int)
    (ha : a = ErrorLoadPrereqs ∨ a = ErrorLoadNotFound ∨ a = ErrorLoadInvalidType ∨
      a = ErrorLoadInvalidValue)
    (hb : b = ErrorLoadPrereqs ∨ b = ErrorLoadNotFound ∨ b = ErrorLoadInvalidType ∨
      b = ErrorLoadInvalidValue) :
    Int.land a b = b ↔ a = b := by
  rcases ha with ha | ha | ha | ha <;> rcases hb with hb | hb | hb | hb <;>
    subst ha <;> subst hb <;> decide

theorem flag_is_two_pow (f : Int)
    (hf : f = ErrorLoadPrereqs ∨ f = ErrorLoadNotFound ∨ f = ErrorLoadInvalidType ∨
      f = ErrorLoadInvalidValue) : ∃ k : Nat, f = 2 ^ k := by
  rcases hf with h | h | h | h
  · exact ⟨1, h.trans ErrorLoadPrereqs_eq⟩
  · exact ⟨2, h.trans ErrorLoadNotFound_eq⟩
  · exact ⟨3, h.trans ErrorLoadInvalidType_eq⟩
  · exact ⟨4, h.trans ErrorLoadInvalidValue_eq⟩

theorem GetCode_land_flag_iff (es : LoadErrors) (f : Int)
    (hes : ∀ e ∈ es, e.Code = ErrorLoadPrereqs ∨ e.Code = ErrorLoadNotFound ∨
      e.Code = ErrorLoadInvalidType ∨ e.Code = ErrorLoadInvalidValue)
    (hf : f = ErrorLoadPrereqs ∨ f = ErrorLoadNotFound ∨ f = ErrorLoadInvalidType ∨
      f = ErrorLoadInvalidValue) :
    Int.land (LoadErrors.GetCode es) f = f ↔ ∃ e ∈ es, e.Code = f := by
  obtain ⟨k, hk⟩ := flag_is_two_pow f hf
  rw [hk, GetCode_land_iff, ← hk]
  constructor
  · rintro ⟨e, he, h⟩
    exact ⟨e, he, (flag_land_flag _ _ (hes e he) hf).mp h⟩
  · rintro ⟨e, he, h⟩
    exact ⟨e, he, (flag_land_flag _ _ (hes e he) hf).mpr h⟩

/-- C17. The four classification codes are pairwise distinct single-bit values:
each is a power of two and the bitwise and of any two of them is 0; so on a list
whose members carry these codes, the test of the combined code against one flag
succeeds exactly when a member of that very class is in the list. -/
theorem C17_flags_independent (es : LoadErrors) :
    (ErrorLoadPrereqs = 2 ^ 1 ∧ ErrorLoadNotFound = 2 ^ 2 ∧ ErrorLoadInvalidType = 2 ^ 3 ∧
      ErrorLoadInvalidValue = 2 ^ 4) ∧
    (ErrorLoadPrereqs ≠ ErrorLoadNotFound ∧ ErrorLoadPrereqs ≠ ErrorLoadInvalidType ∧
      ErrorLoadPrereqs ≠ ErrorLoadInvalidValue ∧ ErrorLoadNotFound ≠ ErrorLoadInvalidType ∧
      ErrorLoadNotFound ≠ ErrorLoadInvalidValue ∧
      ErrorLoadInvalidType ≠ ErrorLoadInvalidValue) ∧
    (Int.land ErrorLoadPrereqs ErrorLoadNotFound = 0 ∧
      Int.land ErrorLoadPrereqs ErrorLoadInvalidType = 0 ∧
      Int.land ErrorLoadPrereqs ErrorLoadInvalidValue = 0 ∧
      Int.land ErrorLoadNotFound ErrorLoadInvalidType = 0 ∧
      Int.land ErrorLoadNotFound ErrorLoadInvalidValue = 0 ∧
      Int.land ErrorLoadInvalidType ErrorLoadInvalidValue = 0) ∧
    ((∀ e ∈ es, e.Code = ErrorLoadPrereqs ∨ e.Code = ErrorLoadNotFound ∨
        e.Code = ErrorLoadInvalidType ∨ e.Code = ErrorLoadInvalidValue) →
      ∀ f : Int, (f = ErrorLoadPrereqs ∨ f = ErrorLoadNotFound ∨ f = ErrorLoadInvalidType ∨
        f = ErrorLoadInvalidValue) →
      (Int.land es.GetCode f = f ↔ ∃ e ∈ es, e.Code = f)) := by
  refine ⟨⟨ErrorLoadPrereqs_eq, ErrorLoadNotFound_eq, ErrorLoadInvalidType_eq,
    ErrorLoadInvalidValue_eq⟩, by decide, by decide, ?_⟩
  intro hes f hf
  exact GetCode_land_flag_iff es f hes hf

/-! ## The codes of the errors of the loop -/

theorem loadStringSlice_codes (l : Lookup) (f : StructField) :
    ∀ e ∈ (loadStringSlice l [] f).1, e.Code = ErrorLoadNotFound := by
  unfold loadStringSlice
  cases l.defaultValue <;> cases l.isEnvironmentDefined <;> simp

theorem loadString_codes (l : Lookup) (f : StructField) :
    ∀ e ∈ (loadString l [] f).1, e.Code = ErrorLoadNotFound := by
  unfold loadString
  cases l.defaultValue <;> cases l.isEnvironmentDefined <;> simp

theorem loadStringSlicePointer_errors (l : Lookup) (errs : LoadErrors) (f : StructField) :
    (loadStringSlicePointer l errs f).1 = errs := by
  unfold loadStringSlicePointer
  cases l.defaultValue <;> cases l.isEnvironmentDefined <;> simp

theorem loadStringPointer_errors (l : Lookup) (errs : LoadErrors) (f : StructField) :
    (loadStringPointer l errs f).1 = errs := by
  unfold loadStringPointer
  cases l.defaultValue <;> cases l.isEnvironmentDefined <;> simp

theorem loadBool_codes (l : Lookup) (f : StructField) :
    ∀ e ∈ (loadBool l [] f).1,
      e.Code = ErrorLoadNotFound ∨ e.Code = ErrorLoadInvalidValue := by
  unfold loadBool parseBoolEnvironment
  cases l.defaultValue <;> cases l.isEnvironmentDefined <;> simp <;> split_ifs <;> simp

theorem loadInt_codes (l : Lookup) (f : StructField) :
    ∀ e ∈ (loadInt l [] f).1,
      e.Code = ErrorLoadNotFound ∨ e.Code = ErrorLoadInvalidValue := by
  unfold loadInt parseIntEnvironment
  cases l.defaultValue <;> cases l.isEnvironmentDefined <;> simp <;> split_ifs <;> simp

theorem loadBoolPointer_codes (l : Lookup) (f : StructField) :
    ∀ e ∈ (loadBoolPointer l [] f).1, e.Code = ErrorLoadInvalidValue := by
  unfold loadBoolPointer parseBoolEnvironment
  cases l.defaultValue <;> cases l.isEnvironmentDefined <;> simp <;> split_ifs <;> simp

theorem loadIntPointer_codes (l : Lookup) (f : StructField) :
    ∀ e ∈ (loadIntPointer l [] f).1, e.Code = ErrorLoadInvalidValue := by
  unfold loadIntPointer parseIntEnvironment
  cases l.defaultValue <;> cases l.isEnvironmentDefined <;> simp <;> split_ifs <;> simp

theorem fieldErrors_codes (env : Environ) (f : StructField) :
    ∀ e ∈ fieldErrors env f, e.Code = ErrorLoadNotFound ∨ e.Code = ErrorLoadInvalidType ∨
      e.Code = ErrorLoadInvalidValue := by
  unfold fieldErrors loadField
  simp only []
  intro e
  split_ifs
  · intro he; exact Or.inl (loadStringSlice_codes _ _ e he)
  · rw [loadStringSlicePointer_errors]; intro he; cases he
  · intro he; exact Or.inl (loadString_codes _ _ e he)
  · rw [loadStringPointer_errors]; intro he; cases he
  · intro he
    rcases loadBool_codes _ _ e he with h | h
    · exact Or.inl h
    · exact Or.inr (Or.inr h)
  · intro he; exact Or.inr (Or.inr (loadBoolPointer_codes _ _ e he))
  · intro he
    rcases loadInt_codes _ _ e he with h | h
    · exact Or.inl h
    · exact Or.inr (Or.inr h)
  · intro he; exact Or.inr (Or.inr (loadIntPointer_codes _ _ e he))
  · intro he
    simp [loadInvalidType] at he
    exact Or.inr (Or.inl (by rw [he]))

theorem fieldErrors_string_codes (env : Environ) (f : StructField)
    (ht : f.TypeName = "string" ∨ f.TypeName = "*string" ∨ f.TypeName = "[]string" ∨
      f.TypeName = "*[]string") :
    ∀ e ∈ fieldErrors env f, e.Code = ErrorLoadNotFound := by
  unfold fieldErrors
  rcases ht with h | h | h | h
  · rw [loadField_string env [] f h]; exact loadString_codes _ _
  · rw [loadField_stringPointer env [] f h, loadStringPointer_errors]
    intro e he; cases he
  · rw [loadField_stringSlice env [] f h]; exact loadStringSlice_codes _ _
  · rw [loadField_stringSlicePointer env [] f h, loadStringSlicePointer_errors]
    intro e he; cases he

/-- C19. The error list that Load returns is either made of ErrorLoadPrereqs
errors only or holds none: every error that the loop over the fields appends
has code ErrorLoadNotFound, ErrorLoadInvalidType or ErrorLoadInvalidValue, so
the ErrorLoadPrereqs bit is set in GetCode exactly when GetCode equals
ErrorLoadPrereqs; and string, *string, []string and *[]string fields never
contribute ErrorLoadInvalidValue (what they contribute is ErrorLoadNotFound). -/
theorem C19_prereqs_exclusive (env : Environ) (c : Configuration) :
    (∀ es : LoadErrors, (Load env c).1 = some es →
      ((∀ e ∈ es, e.Code = ErrorLoadPrereqs) ∨
        (∀ e ∈ es, e.Code = ErrorLoadNotFound ∨ e.Code = ErrorLoadInvalidType ∨
          e.Code = ErrorLoadInvalidValue)) ∧
      (Int.land es.GetCode ErrorLoadPrereqs = ErrorLoadPrereqs ↔
        es.GetCode = ErrorLoadPrereqs)) ∧
    (∀ (f : StructField) (errs : LoadErrors), ∃ extra : LoadErrors,
      (loadField env errs f).1 = errs ++ extra ∧
      ∀ e ∈ extra, e.Code = ErrorLoadNotFound ∨ e.Code = ErrorLoadInvalidType ∨
        e.Code = ErrorLoadInvalidValue) ∧
    (∀ (f : StructField) (errs : LoadErrors),
      (f.TypeName = "string" ∨ f.TypeName = "*string" ∨ f.TypeName = "[]string" ∨
        f.TypeName = "*[]string") →
      ∃ extra : LoadErrors, (loadField env errs f).1 = errs ++ extra ∧
        ∀ e ∈ extra, e.Code ≠ ErrorLoadInvalidValue ∧ e.Code = ErrorLoadNotFound) := by
  refine ⟨?_, ?_, ?_⟩
  · intro es hes
    have hcases : (es = prereqErrors c ∧ es ≠ []) ∨
        (es = c.Fields.flatMap (fieldErrors env) ∧ es ≠ []) := by
      by_cases hp : c.IsPointer = false ∨ c.IsStruct = false
      · rw [Load_prereqs env c hp] at hes
        have := Option.some.inj hes
        exact Or.inl ⟨this.symm, this ▸ prereqErrors_ne_nil c hp⟩
      · have hp1 : c.IsPointer = true := by
          cases h : c.IsPointer
          · exact absurd (Or.inl h) hp
          · rfl
        have hs1 : c.IsStruct = true := by
          cases h : c.IsStruct
          · exact absurd (Or.inr h) hp
          · rfl
        rw [Load_eq env c hp1 hs1] at hes
        by_cases hnil : c.Fields.flatMap (fieldErrors env) = []
        · simp [hnil] at hes
        · simp only [if_neg hnil] at hes
          have := Option.some.inj hes
          exact Or.inr ⟨this.symm, this ▸ hnil⟩
    rcases hcases with ⟨h, hne⟩ | ⟨h, hne⟩
    · have hall : ∀ e ∈ es, e.Code = ErrorLoadPrereqs := by
        rw [h]; exact prereqErrors_codes c
      refine ⟨Or.inl hall, ?_⟩
      have hcode := GetCode_of_all_eq es _ hne hall
      rw [hcode]
      exact ⟨fun _ => rfl, fun _ => by decide⟩
    · have hall : ∀ e ∈ es, e.Code = ErrorLoadNotFound ∨ e.Code = ErrorLoadInvalidType ∨
          e.Code = ErrorLoadInvalidValue := by
        rw [h]
        intro e he
        rw [List.mem_flatMap] at he
        obtain ⟨f, _, hef⟩ := he
        exact fieldErrors_codes env f e hef
      refine ⟨Or.inr hall, ?_⟩
      have hall4 : ∀ e ∈ es, e.Code = ErrorLoadPrereqs ∨ e.Code = ErrorLoadNotFound ∨
          e.Code = ErrorLoadInvalidType ∨ e.Code = ErrorLoadInvalidValue :=
        fun e he => Or.inr (hall e he)
      have hno : ¬ Int.land es.GetCode ErrorLoadPrereqs = ErrorLoadPrereqs := by
        rw [GetCode_land_flag_iff es _ hall4 (Or.inl rfl)]
        rintro ⟨e, he, hc⟩
        rcases hall e he with h1 | h1 | h1 <;> rw [h1] at hc <;> revert hc <;> decide
      constructor
      · intro hb; exact absurd hb hno
      · intro hc
        exfalso
        apply hno
        rw [hc]
        decide
  · intro f errs
    exact ⟨fieldErrors env f, by rw [loadField_eq], fieldErrors_codes env f⟩
  · intro f errs ht
    refine ⟨fieldErrors env f, by rw [loadField_eq], ?_⟩
    intro e he
    have := fieldErrors_string_codes env f ht e he
    exact ⟨by rw [this]; decide, this⟩

/-! ## `Split` loses nothing: joining the pieces gives the string back -/

theorem splitLoop_ne_nil (sep s : List Char) (skip : Nat) (cur : List Char) :
    splitLoop sep s skip cur ≠ [] := by
  induction s generalizing skip cur with
  | nil => simp [splitLoop]
  | cons c rest ih =>
    cases skip with
    | zero =>
      unfold splitLoop
      split_ifs
      · simp
      · exact ih _ _
    | succ k =>
      unfold splitLoop
      exact ih _ _

theorem string_mk_append (a b : List Char) : (⟨a ++ b⟩ : String) = ⟨a⟩ ++ ⟨b⟩ := by
  apply String.ext
  simp

theorem Join_splitLoop (sep : List Char) (hsep : sep ≠ []) (s : List Char) (skip : Nat)
    (cur : List Char) (hskip : skip ≤ s.length) :
    Join (splitLoop sep s skip cur) ⟨sep⟩ = ⟨cur.reverse ++ s.drop skip⟩ := by
  induction s generalizing skip cur with
  | nil =>
    have : skip = 0 := by simpa using hskip
    subst this
    simp [splitLoop, Join]
  | cons c rest ih =>
    cases skip with
    | succ k =>
      unfold splitLoop
      rw [ih k cur (by simpa using hskip)]
      simp
    | zero =>
      unfold splitLoop
      by_cases hp : sep.isPrefixOf (c :: rest) = true
      · rw [if_pos hp, Join_cons_of_ne_nil _ _ _ (splitLoop_ne_nil _ _ _ _)]
        have hpre : sep <+: c :: rest := List.isPrefixOf_iff_prefix.mp hp
        obtain ⟨t, ht⟩ := hpre
        have hlen : sep.length - 1 ≤ rest.length := by
          have := congrArg List.length ht
          simp at this
          omega
        rw [ih (sep.length - 1) [] hlen]
        have hdrop : rest.drop (sep.length - 1) = t := by
          cases sep with
          | nil => exact absurd rfl hsep
          | cons a sep2 =>
            simp only [List.cons_append, List.cons.injEq] at ht
            simp only [List.length_cons, Nat.add_sub_cancel]
            rw [← ht.2]
            simp
        rw [hdrop]
        apply String.ext
        simp [← ht]
      · rw [if_neg hp, ih 0 (c :: cur) (Nat.zero_le _)]
        simp

theorem Join_explode (s : List Char) :
    Join (s.map (fun c => (⟨[c]⟩ : String))) "" = ⟨s⟩ := by
  induction s with
  | nil => rfl
  | cons c rest ih =>
    cases rest with
    | nil => rfl
    | cons d rest2 =>
      rw [List.map_cons, Join_cons_of_ne_nil _ _ _ (by simp), ih]
      apply String.ext
      simp

theorem Join_Split (s sep : String) : Join (Split s sep) sep = s := by
  unfold Split
  by_cases h : sep.data = []
  · rw [if_pos h]
    have hsep : sep = "" := String.ext h
    rw [hsep, Join_explode]
  · rw [if_neg h]
    have := Join_splitLoop sep.data h s.data 0 [] (Nat.zero_le _)
    simpa using this
/-! ## `Trim` removes exactly the boundary characters of the cutset -/

theorem head?_dropWhile_false (p : Char → Bool) (l : List Char) (c : Char)
    (h : (l.dropWhile p).head? = some c) : p c = false := by
  have := List.head?_dropWhile_not p l
  rw [h] at this
  exact this

theorem getLast?_of_suffix (x y : List Char) (h : x <:+ y) (c : Char)
    (hc : x.getLast? = some c) : y.getLast? = some c := by
  obtain ⟨t, ht⟩ := h
  rw [← ht, List.getLast?_append, hc]
  rfl

theorem Trim_spec (s cutset : String) :
    ∃ pre post : List Char,
      s.data = pre ++ (Trim s cutset).data ++ post ∧
      (∀ c ∈ pre, c ∈ cutset.data) ∧ (∀ c ∈ post, c ∈ cutset.data) ∧
      (∀ c, (Trim s cutset).data.head? = some c → c ∉ cutset.data) ∧
      (∀ c, (Trim s cutset).data.getLast? = some c → c ∉ cutset.data) := by
  unfold Trim
  simp only
  generalize hp : (fun c => decide (c ∈ cutset.data)) = p
  have hpc : ∀ c, p c = true → c ∈ cutset.data := by
    intro c h; rw [← hp] at h; simpa using h
  have hpn : ∀ c, p c = false → c ∉ cutset.data := by
    intro c h; rw [← hp] at h; simpa using h
  refine ⟨((s.data.reverse.dropWhile p).reverse).takeWhile p,
    (s.data.reverse.takeWhile p).reverse, ?_, ?_, ?_, ?_, ?_⟩
  · rw [List.takeWhile_append_dropWhile, ← List.reverse_append,
      List.takeWhile_append_dropWhile, List.reverse_reverse]
  · intro c hc
    exact hpc c (List.mem_takeWhile_imp hc)
  · intro c hc
    rw [List.mem_reverse] at hc
    exact hpc c (List.mem_takeWhile_imp hc)
  · intro c hc
    exact hpn c (head?_dropWhile_false p _ c hc)
  · intro c hc
    have h1 := getLast?_of_suffix _ _ (List.dropWhile_suffix p) c hc
    rw [List.getLast?_reverse] at h1
    exact hpn c (head?_dropWhile_false p _ c h1)

/-! ## String-sequence fields -/

theorem coerced_slice (typeName delimiter raw : String) (ht : isStringSliceType typeName) :
    coerced typeName delimiter raw
      = some (sliceValue typeName (Split (Trim raw delimiter) delimiter)) := by
  unfold coerced sliceValue
  rcases ht with h | h <;> subst h <;> simp

theorem loadField_slice_of_raw (env : Environ) (errs : LoadErrors) (f : StructField)
    (ht : isStringSliceType f.TypeName) (v : String) (hraw : rawValue env f = some v) :
    loadField env errs f
      = (errs,
          { f with Value := sliceValue f.TypeName (Split (Trim v f.delimiter) f.delimiter) }) := by
  unfold rawValue at hraw
  cases he : env f.GetEnvironmentKey with
  | some w =>
    rw [he] at hraw
    have hw : w = v := Option.some.inj hraw
    subst hw
    have h2 : (loadField env errs f).2 = _ :=
      (congrArg Prod.snd (loadField_eq env errs f)).trans
        (fieldResult_of_environment env f w he _ (coerced_slice _ _ _ ht))
    have h1 : (loadField env errs f).1 = errs := by
      rcases ht with h | h
      · rw [loadField_stringSlice env errs f h]
        unfold loadStringSlice
        cases hd : (lookup env f).defaultValue <;> simp [lookup, he]
      · rw [loadField_stringSlicePointer env errs f h]
        exact loadStringSlicePointer_errors _ _ _
    exact Prod.ext h1 h2
  | none =>
    rw [he] at hraw
    exact loadField_of_default env errs f v he hraw _ (coerced_slice _ _ _ ht)

theorem Split_empty (sep : String) (h : sep ≠ "") : Split "" sep = [""] := by
  unfold Split
  have : sep.data ≠ [] := fun hd => h (String.ext hd)
  rw [if_neg this]
  rfl

/-- C12. For a []string or *[]string field with resolved raw value v (the
environment value if defined, otherwise the default literal) and delimiter d
(the delimiter tag if present, otherwise `,`), the sequence bound by Load is
Split (Trim v d) d: Trim takes away a prefix and a suffix of v made of
characters of d and leaves a text that neither starts nor ends with a character
of d, and the pieces, joined by d, give that text back, so no element is
trimmed. The raw value `a,b,c` under `,` gives a, b, c and ` hi hi` under a
space gives hi, hi. -/
theorem C12_string_slice_split (env : Environ) (c : Configuration)
    (hp : c.IsPointer = true) (hs : c.IsStruct = true) (i : Nat) (f : StructField)
    (hf : c.Fields[i]? = some f) (ht : isStringSliceType f.TypeName) (v : String)
    (hraw : rawValue env f = some v) :
    (Load env c).2.Fields[i]?
      = some { f with Value := sliceValue f.TypeName (Split (Trim v f.delimiter) f.delimiter) } ∧
    f.delimiter = (match f.TagLookup "delimiter" with
      | some d => d
      | none => ",") ∧
    (∃ pre post : List Char,
      v.data = pre ++ (Trim v f.delimiter).data ++ post ∧
      (∀ x ∈ pre, x ∈ f.delimiter.data) ∧ (∀ x ∈ post, x ∈ f.delimiter.data) ∧
      (∀ x, (Trim v f.delimiter).data.head? = some x → x ∉ f.delimiter.data) ∧
      (∀ x, (Trim v f.delimiter).data.getLast? = some x → x ∉ f.delimiter.data)) ∧
    Join (Split (Trim v f.delimiter) f.delimiter) f.delimiter = Trim v f.delimiter ∧
    Split (Trim "a,b,c" ",") "," = ["a", "b", "c"] ∧
    Split (Trim " hi hi" " ") " " = ["hi", "hi"] := by
  refine ⟨?_, ?_, Trim_spec v f.delimiter, Join_Split _ _, by decide, by decide⟩
  · rw [Load_field_at env c hp hs i f hf]
    unfold fieldResult
    rw [loadField_slice_of_raw env [] f ht v hraw]
  · unfold StructField.delimiter StructTagKeyDelimiter DefaultStringSliceDelimiter
    cases f.TagLookup "delimiter" <;> rfl

/-- C12 at a `*[]string` field with default ` hi hi` and delimiter ` `, under an
empty environment. -/
theorem C12_string_slice_split_witness :
    isStringSliceType "*[]string" ∧
    rawValue (fun _ => none)
      ⟨"L", "*[]string", [("default", " hi hi"), ("delimiter", " ")],
        Value.stringSlicePtr none⟩ = some " hi hi" ∧
    (Load (fun _ => none)
        ⟨true, true, [⟨"L", "*[]string", [("default", " hi hi"), ("delimiter", " ")],
          Value.stringSlicePtr none⟩]⟩).2.Fields[0]?
      = some ⟨"L", "*[]string", [("default", " hi hi"), ("delimiter", " ")],
          Value.stringSlicePtr (some (some ["hi", "hi"]))⟩ :=
  ⟨by decide, by decide,
    (C12_string_slice_split (fun _ => none)
      ⟨true, true, [⟨"L", "*[]string", [("default", " hi hi"), ("delimiter", " ")],
        Value.stringSlicePtr none⟩]⟩ rfl rfl 0
      ⟨"L", "*[]string", [("default", " hi hi"), ("delimiter", " ")],
        Value.stringSlicePtr none⟩ rfl (by decide) " hi hi" (by decide)).1.trans (by decide)⟩

/-- C13, as stated, fails for the empty delimiter: a `[]string` field tagged
`delimiter:""` whose environment value is the empty string has an empty raw
value after trimming, and Load binds the empty sequence, not the sequence of
one empty string. -/
theorem C13_empty_delimiter_counterexample :
    rawValue (fun k => if k = "L" then some "" else none)
      ⟨"L", "[]string", [("delimiter", "")], Value.stringSlice none⟩ = some "" ∧
    Trim "" (StructField.delimiter
      ⟨"L", "[]string", [("delimiter", "")], Value.stringSlice none⟩) = "" ∧
    (Load (fun k => if k = "L" then some "" else none)
        ⟨true, true, [⟨"L", "[]string", [("delimiter", "")], Value.stringSlice none⟩]⟩).2.Fields
      = [⟨"L", "[]string", [("delimiter", "")], Value.stringSlice (some [])⟩] ∧
    (Load (fun k => if k = "L" then some "" else none)
        ⟨true, true, [⟨"L", "[]string", [("delimiter", "")], Value.stringSlice none⟩]⟩).2.Fields
      ≠ [⟨"L", "[]string", [("delimiter", "")], Value.stringSlice (some [""])⟩] := by
  decide

/-- C13, amended. For a []string or *[]string field and a non-empty delimiter,
if the resolved raw value is empty after trimming the delimiter characters, the
bound sequence is exactly one element, the empty string, and the field
contributes no error. -/
theorem C13_empty_after_trim (env : Environ) (c : Configuration)
    (hp : c.IsPointer = true) (hs : c.IsStruct = true) (i : Nat) (f : StructField)
    (hf : c.Fields[i]? = some f) (ht : isStringSliceType f.TypeName) (v : String)
    (hraw : rawValue env f = some v) (hd : f.delimiter ≠ "")
    (hempty : Trim v f.delimiter = "") :
    (Load env c).2.Fields[i]? = some { f with Value := sliceValue f.TypeName [""] } ∧
    fieldErrors env f = [] ∧
    ∀ errs : LoadErrors, (loadField env errs f).1 = errs := by
  refine ⟨?_, ?_, ?_⟩
  · rw [Load_field_at env c hp hs i f hf]
    unfold fieldResult
    rw [loadField_slice_of_raw env [] f ht v hraw, hempty, Split_empty _ hd]
  · unfold fieldErrors
    rw [loadField_slice_of_raw env [] f ht v hraw]
  · intro errs
    rw [loadField_slice_of_raw env errs f ht v hraw]

/-- C13, amended, at a `[]string` field whose environment value `,,` consists of
delimiter characters only. -/
theorem C13_empty_after_trim_witness :
    isStringSliceType "[]string" ∧
    rawValue (fun k => if k = "L" then some ",," else none)
      ⟨"L", "[]string", [], Value.stringSlice none⟩ = some ",," ∧
    StructField.delimiter ⟨"L", "[]string", [], Value.stringSlice none⟩ ≠ "" ∧
    Trim ",," (StructField.delimiter ⟨"L", "[]string", [], Value.stringSlice none⟩) = "" ∧
    (Load (fun k => if k = "L" then some ",," else none)
        ⟨true, true, [⟨"L", "[]string", [], Value.stringSlice none⟩]⟩).2.Fields[0]?
      = some ⟨"L", "[]string", [], Value.stringSlice (some [""])⟩ :=
  ⟨by decide, by decide, by decide, by decide,
    (C13_empty_after_trim (fun k => if k = "L" then some ",," else none)
      ⟨true, true, [⟨"L", "[]string", [], Value.stringSlice none⟩]⟩ rfl rfl 0
      ⟨"L", "[]string", [], Value.stringSlice none⟩ rfl (by decide) ",," (by decide)
      (by decide) (by decide)).1.trans (by decide)⟩

/-! ## What the setter receives after an error -/

theorem fieldResult_notFound (env : Environ) (f : StructField)
    (ht : isRequiredType f.TypeName) (hd : f.GetDefaultValue = none)
    (he : env f.GetEnvironmentKey = none) :
    fieldResult env f = { f with Value := unresolvedValue f.TypeName f.delimiter } := by
  unfold fieldResult unresolvedValue
  rcases ht with h | h | h | h
  · rw [loadField_bool env [] f h]
    simp [loadBool, parseBoolEnvironment, lookup, hd, he, h, StructField.SetBool]
  · rw [loadField_int env [] f h]
    simp [loadInt, parseIntEnvironment, lookup, hd, he, h, StructField.SetInt, intOfInt64]
  · rw [loadField_string env [] f h]
    simp [loadString, lookup, hd, he, h, StructField.SetString]
  · rw [loadField_stringSlice env [] f h]
    simp [loadStringSlice, lookup, hd, he, h, StructField.SetStringSlice,
      StructField.delimiter]

theorem notFound_reported_iff (env : Environ) (f : StructField)
    (ht : isRequiredType f.TypeName) :
    (∃ e ∈ fieldErrors env f, e.Code = ErrorLoadNotFound)
      ↔ f.GetDefaultValue = none ∧ env f.GetEnvironmentKey = none := by
  have hne : ErrorLoadInvalidValue ≠ ErrorLoadNotFound := by decide
  constructor
  · intro h
    unfold fieldErrors at h
    rcases ht with ht | ht | ht | ht
    · rw [loadField_bool env [] f ht] at h
      unfold loadBool parseBoolEnvironment at h
      cases hd : f.GetDefaultValue <;> cases he : env f.GetEnvironmentKey <;>
        simp [lookup, hd, he] at h ⊢ <;> split_ifs at h <;> simp [hne] at h
    · rw [loadField_int env [] f ht] at h
      unfold loadInt parseIntEnvironment at h
      cases hd : f.GetDefaultValue <;> cases he : env f.GetEnvironmentKey <;>
        simp [lookup, hd, he] at h ⊢ <;> split_ifs at h <;> simp [hne] at h
    · rw [loadField_string env [] f ht] at h
      unfold loadString at h
      cases hd : f.GetDefaultValue <;> cases he : env f.GetEnvironmentKey <;>
        simp [lookup, hd, he] at h ⊢
    · rw [loadField_stringSlice env [] f ht] at h
      unfold loadStringSlice at h
      cases hd : f.GetDefaultValue <;> cases he : env f.GetEnvironmentKey <;>
        simp [lookup, hd, he] at h ⊢
  · rintro ⟨hd, he⟩
    obtain ⟨kind, hk⟩ := fieldErrors_notFound env f ht hd he
    exact ⟨_, by rw [hk]; exact List.mem_singleton_self _, rfl⟩

/-- C14, as stated, fails: on a zero-valued record with the one field
`Error []string` (nil) and an empty environment, Load reports
ErrorLoadNotFound and the field is no longer nil afterwards, it holds the
sequence of one empty string; and a string field that held `x` holds the empty
string after its not-found error. -/
theorem C14_not_found_field_written_counterexample :
    Load (fun _ => none) ⟨true, true, [⟨"Error", "[]string", [], Value.stringSlice none⟩]⟩
      = (some [⟨ErrorLoadNotFound, "failed to load 'Error' via \"$\x7bERROR\x7d\" (string)"⟩],
          ⟨true, true, [⟨"Error", "[]string", [], Value.stringSlice (some [""])⟩]⟩) ∧
    Value.stringSlice (some [""]) ≠ Value.stringSlice none ∧
    Load (fun _ => none) ⟨true, true, [⟨"Error", "string", [], Value.string "x"⟩]⟩
      = (some [⟨ErrorLoadNotFound, "failed to load 'Error' via \"$\x7bERROR\x7d\" (string)"⟩],
          ⟨true, true, [⟨"Error", "string", [], Value.string ""⟩]⟩) ∧
    Value.string "" ≠ Value.string "x" := by
  decide

/-- C14, amended. For a required field (bool, int, string, []string) for which
Load reports ErrorLoadNotFound, the case still calls its setter: after Load a
bool field holds false, an int field 0, a string field the empty string, and a
[]string field the split of the empty string (one empty element under a
non-empty delimiter); so a bool, int or string field that was at its zero value
has the same value after Load as before. -/
theorem C14_not_found_field_written (env : Environ) (c : Configuration)
    (hp : c.IsPointer = true) (hs : c.IsStruct = true) (i : Nat) (f : StructField)
    (hf : c.Fields[i]? = some f) (ht : isRequiredType f.TypeName)
    (hnf : ∃ e ∈ fieldErrors env f, e.Code = ErrorLoadNotFound) :
    (Load env c).2.Fields[i]?
      = some { f with Value := unresolvedValue f.TypeName f.delimiter } ∧
    (f.TypeName = "bool" → unresolvedValue f.TypeName f.delimiter = Value.bool false) ∧
    (f.TypeName = "int" → unresolvedValue f.TypeName f.delimiter = Value.int 0) ∧
    (f.TypeName = "string" → unresolvedValue f.TypeName f.delimiter = Value.string "") ∧
    (f.TypeName = "[]string" → f.delimiter ≠ "" →
      unresolvedValue f.TypeName f.delimiter = Value.stringSlice (some [""])) ∧
    ((f.TypeName = "bool" ∧ f.Value = Value.bool false ∨
        f.TypeName = "int" ∧ f.Value = Value.int 0 ∨
        f.TypeName = "string" ∧ f.Value = Value.string "") →
      (Load env c).2.Fields[i]? = some f) := by
  obtain ⟨hd, he⟩ := (notFound_reported_iff env f ht).mp hnf
  have hres : (Load env c).2.Fields[i]?
      = some { f with Value := unresolvedValue f.TypeName f.delimiter } := by
    rw [Load_field_at env c hp hs i f hf, fieldResult_notFound env f ht hd he]
  refine ⟨hres, ?_, ?_, ?_, ?_, ?_⟩
  · intro h; simp [unresolvedValue, h]
  · intro h; simp [unresolvedValue, h]
  · intro h; simp [unresolvedValue, h]
  · intro h hdel
    have hempty : Trim "" f.delimiter = "" := by
      unfold Trim
      rfl
    simp [unresolvedValue, h, hempty, Split_empty _ hdel]
  · intro hz
    rw [hres]
    congr 1
    cases f with
    | mk n t tg v =>
      simp only at hz ⊢
      rcases hz with ⟨h, hv⟩ | ⟨h, hv⟩ | ⟨h, hv⟩ <;> subst h <;> subst hv <;>
        simp [unresolvedValue]

/-- C14, amended, at the record `Error []string` with a nil field, under an
empty environment. -/
theorem C14_not_found_field_written_witness :
    isRequiredType "[]string" ∧
    (∃ e ∈ fieldErrors (fun _ => none)
        ⟨"Error", "[]string", [], Value.stringSlice none⟩, e.Code = ErrorLoadNotFound) ∧
    (Load (fun _ => none)
        ⟨true, true, [⟨"Error", "[]string", [], Value.stringSlice none⟩]⟩).2.Fields[0]?
      = some ⟨"Error", "[]string", [], Value.stringSlice (some [""])⟩ :=
  ⟨by decide, ⟨_, List.mem_singleton_self _, rfl⟩,
    (C14_not_found_field_written (fun _ => none)
      ⟨true, true, [⟨"Error", "[]string", [], Value.stringSlice none⟩]⟩ rfl rfl 0
      ⟨"Error", "[]string", [], Value.stringSlice none⟩ rfl (by decide)
      ⟨_, List.mem_singleton_self _, rfl⟩).1.trans (by decide)⟩

/-! ## Parsed fields are written with what the parser returned -/

theorem fieldResult_parsed (env : Environ) (f : StructField)
    (ht : isParsedType f.TypeName) (raw : String) (hraw : rawValue env f = some raw) :
    fieldResult env f = { f with Value := parsedValue f.TypeName raw } := by
  unfold fieldResult parsedValue
  unfold rawValue at hraw
  rcases ht with h | h | h | h
  · rw [loadField_bool env [] f h]
    unfold loadBool parseBoolEnvironment
    cases he : env f.GetEnvironmentKey <;> cases hd : f.GetDefaultValue <;>
      simp [lookup, he, hd, h, StructField.SetBool] at hraw ⊢ <;> subst hraw <;>
      split_ifs <;> rfl
  · rw [loadField_boolPointer env [] f h]
    unfold loadBoolPointer parseBoolEnvironment
    cases he : env f.GetEnvironmentKey <;> cases hd : f.GetDefaultValue <;>
      simp [lookup, he, hd, h, StructField.SetBoolPointer] at hraw ⊢ <;> subst hraw <;>
      split_ifs <;> rfl
  · rw [loadField_int env [] f h]
    unfold loadInt parseIntEnvironment
    cases he : env f.GetEnvironmentKey <;> cases hd : f.GetDefaultValue <;>
      simp [lookup, he, hd, h, StructField.SetInt] at hraw ⊢ <;> subst hraw <;>
      split_ifs <;> simp [intOfInt64_ParseInt]
  · rw [loadField_intPointer env [] f h]
    unfold loadIntPointer parseIntEnvironment
    cases he : env f.GetEnvironmentKey <;> cases hd : f.GetDefaultValue <;>
      simp [lookup, he, hd, h, StructField.SetIntPointer] at hraw ⊢ <;> subst hraw <;>
      split_ifs <;> simp [intOfInt64_ParseInt]


theorem invalidValue_reported_raw (env : Environ) (f : StructField)
    (ht : isParsedType f.TypeName)
    (hiv : ∃ e ∈ fieldErrors env f, e.Code = ErrorLoadInvalidValue) :
    ∃ raw, rawValue env f = some raw := by
  have hne : ErrorLoadNotFound ≠ ErrorLoadInvalidValue := by decide
  unfold rawValue
  cases he : env f.GetEnvironmentKey with
  | some v => exact ⟨v, rfl⟩
  | none =>
    cases hd : f.GetDefaultValue with
    | some d => exact ⟨d, rfl⟩
    | none =>
      exfalso
      unfold fieldErrors at hiv
      rcases ht with h | h | h | h
      · rw [loadField_bool env [] f h] at hiv
        simp [loadBool, parseBoolEnvironment, lookup, he, hd, hne] at hiv
      · rw [loadField_boolPointer env [] f h] at hiv
        simp [loadBoolPointer, parseBoolEnvironment, lookup, he, hd] at hiv
      · rw [loadField_int env [] f h] at hiv
        simp [loadInt, parseIntEnvironment, lookup, he, hd, hne] at hiv
      · rw [loadField_intPointer env [] f h] at hiv
        simp [loadIntPointer, parseIntEnvironment, lookup, he, hd] at hiv

theorem ParseBool_error_value (s : String) (h : (ParseBool s).2 ≠ none) :
    (ParseBool s).1 = false := by
  unfold ParseBool at h ⊢
  split_ifs at h ⊢ <;> simp at h ⊢

theorem ParseInt_syntax_value (s : String) (h : (ParseInt s).2 = some NumError.syntaxErr) :
    (ParseInt s).1 = 0 := by
  unfold ParseInt at h ⊢
  by_cases h0 : s.data = []
  · simp [h0]
  · simp only [h0, if_false] at h ⊢
    by_cases hu : (ParseUint (if s.data.head? = some '+' ∨ s.data.head? = some '-'
        then s.data.tail else s.data)).2 = some NumError.syntaxErr
    · simp only [hu, if_true]
    · exfalso
      simp only [hu, if_false] at h
      split_ifs at h <;> simp at h

theorem parsedValue_ne_nil (typeName raw : String) :
    parsedValue typeName raw ≠ Value.boolPtr none ∧
      parsedValue typeName raw ≠ Value.intPtr none := by
  unfold parsedValue
  split_ifs <;> simp

/-- C15, as stated, fails: on the record `Error *bool` with the default `nope`
and a nil field, Load reports ErrorLoadInvalidValue and the field is not nil
afterwards, it points to false. -/
theorem C15_invalid_value_field_written_counterexample :
    Load (fun _ => none)
      ⟨true, true, [⟨"Error", "*bool", [("default", "nope")], Value.boolPtr none⟩]⟩
      = (some [⟨ErrorLoadInvalidValue, "failed to parse 'nope' as a boolean for loading 'Error'"⟩],
          ⟨true, true,
            [⟨"Error", "*bool", [("default", "nope")], Value.boolPtr (some false)⟩]⟩) ∧
    Value.boolPtr (some false) ≠ Value.boolPtr none := by
  decide

/-- C15, amended. For a bool, *bool, int or *int field for which Load reports
ErrorLoadInvalidValue, the case still calls its setter: the field has a raw
value (the environment value if defined, otherwise the default literal) and
holds after Load what the parser returned for it, with or without error (false
for a rejected boolean literal, 0 for an integer literal of invalid syntax), in
pointer form for the optional types; so an optional field is not nil after
Load. -/
theorem C15_invalid_value_field_written (env : Environ) (c : Configuration)
    (hp : c.IsPointer = true) (hs : c.IsStruct = true) (i : Nat) (f : StructField)
    (hf : c.Fields[i]? = some f) (ht : isParsedType f.TypeName)
    (hiv : ∃ e ∈ fieldErrors env f, e.Code = ErrorLoadInvalidValue) :
    ∃ raw : String, rawValue env f = some raw ∧
      (Load env c).2.Fields[i]? = some { f with Value := parsedValue f.TypeName raw } ∧
      parsedValue f.TypeName raw ≠ Value.boolPtr none ∧
      parsedValue f.TypeName raw ≠ Value.intPtr none ∧
      ((ParseBool raw).2 ≠ none → (ParseBool raw).1 = false) ∧
      ((ParseInt raw).2 = some NumError.syntaxErr → (ParseInt raw).1 = 0) := by
  obtain ⟨raw, hraw⟩ := invalidValue_reported_raw env f ht hiv
  refine ⟨raw, hraw, ?_, (parsedValue_ne_nil _ _).1, (parsedValue_ne_nil _ _).2,
    ParseBool_error_value raw, ParseInt_syntax_value raw⟩
  rw [Load_field_at env c hp hs i f hf, fieldResult_parsed env f ht raw hraw]

/-- C15, amended, at the record `Error *int` with the default `nope` and a nil
field. -/
theorem C15_invalid_value_field_written_witness :
    isParsedType "*int" ∧
    (∃ e ∈ fieldErrors (fun _ => none)
        ⟨"Error", "*int", [("default", "nope")], Value.intPtr none⟩,
      e.Code = ErrorLoadInvalidValue) ∧
    ∃ raw : String,
      rawValue (fun _ => none)
        ⟨"Error", "*int", [("default", "nope")], Value.intPtr none⟩ = some raw ∧
      (Load (fun _ => none)
          ⟨true, true, [⟨"Error", "*int", [("default", "nope")],
            Value.intPtr none⟩]⟩).2.Fields[0]?
        = some ⟨"Error", "*int", [("default", "nope")], parsedValue "*int" raw⟩ :=
  ⟨by decide, ⟨_, List.mem_singleton_self _, rfl⟩, by
    obtain ⟨raw, h1, h2, _⟩ := C15_invalid_value_field_written (fun _ => none)
      ⟨true, true, [⟨"Error", "*int", [("default", "nope")], Value.intPtr none⟩]⟩ rfl rfl 0
      ⟨"Error", "*int", [("default", "nope")], Value.intPtr none⟩ rfl (by decide)
      ⟨_, List.mem_singleton_self _, rfl⟩
    exact ⟨raw, h1, h2⟩⟩

/-! ## Both literals of a parsed field are parsed -/

theorem fieldErrors_parsed_env (env : Environ) (f : StructField)
    (ht : isParsedType f.TypeName) (v : String) (he : env f.GetEnvironmentKey = some v) :
    fieldErrors env f
      = (match f.GetDefaultValue with
          | some d => parseErrors f.TypeName d f.Name
          | none => []) ++ parseErrors f.TypeName v f.Name := by
  unfold fieldErrors parseErrors
  rcases ht with h | h | h | h
  · rw [loadField_bool env [] f h]
    unfold loadBool parseBoolEnvironment
    cases hd : f.GetDefaultValue <;> simp [lookup, he, hd, h] <;> split_ifs <;> simp
  · rw [loadField_boolPointer env [] f h]
    unfold loadBoolPointer parseBoolEnvironment
    cases hd : f.GetDefaultValue <;> simp [lookup, he, hd, h] <;> split_ifs <;> simp
  · rw [loadField_int env [] f h]
    unfold loadInt parseIntEnvironment
    cases hd : f.GetDefaultValue <;> simp [lookup, he, hd, h] <;> split_ifs <;> simp
  · rw [loadField_intPointer env [] f h]
    unfold loadIntPointer parseIntEnvironment
    cases hd : f.GetDefaultValue <;> simp [lookup, he, hd, h] <;> split_ifs <;> simp

theorem parseErrors_of_valid (typeName delimiter raw name : String)
    (ht : isParsedType typeName) (h : coerced typeName delimiter raw ≠ none) :
    parseErrors typeName raw name = [] := by
  unfold coerced at h
  unfold parseErrors
  rcases ht with ht | ht | ht | ht <;> subst ht <;> simp at h ⊢ <;> exact h

theorem parseErrors_of_invalid (typeName delimiter raw name : String)
    (ht : isParsedType typeName) (h : coerced typeName delimiter raw = none) :
    ∃ msg : String, parseErrors typeName raw name = [⟨ErrorLoadInvalidValue, msg⟩] := by
  unfold coerced at h
  unfold parseErrors
  rcases ht with ht | ht | ht | ht <;> subst ht <;> simp at h ⊢ <;> simp [h]

/-- C16, as stated, fails: a bool field `B` with the unparseable default `nope`
and the valid environment value `true` contributes an ErrorLoadInvalidValue
error, while the same field without the default tag contributes none, so the
errors depend on the default tag; and with the environment value `nope2` the
field with the default contributes two errors, not exactly one. -/
theorem C16_default_always_parsed_counterexample :
    coerced "bool" "," "true" = some (Value.bool true) ∧
    fieldErrors (fun k => if k = "B" then some "true" else none)
        ⟨"B", "bool", [("default", "nope")], Value.bool false⟩
      = [⟨ErrorLoadInvalidValue, "failed to parse 'nope' as a boolean for loading 'B'"⟩] ∧
    fieldErrors (fun k => if k = "B" then some "true" else none)
        ⟨"B", "bool", [], Value.bool false⟩ = [] ∧
    fieldErrors (fun k => if k = "B" then some "nope2" else none)
        ⟨"B", "bool", [("default", "nope")], Value.bool false⟩
      = [⟨ErrorLoadInvalidValue, "failed to parse 'nope' as a boolean for loading 'B'"⟩,
         ⟨ErrorLoadInvalidValue, "failed to parse 'nope2' as a boolean for loading 'B'"⟩] := by
  decide

/-- C16, amended. For a bool, *bool, int or *int field whose environment key is
defined, the default literal, if one is declared, is parsed first and the
environment value after it, and each literal that its parser rejects
contributes one ErrorLoadInvalidValue error. So with no default or a valid
default the errors depend only on the environment value: a valid one yields no
error and an invalid one exactly one ErrorLoadInvalidValue error; an
unparseable default adds one ErrorLoadInvalidValue error of its own before
them, also when the environment value is valid. -/
theorem C16_default_always_parsed (env : Environ) (f : StructField)
    (ht : isParsedType f.TypeName) (v : String) (he : env f.GetEnvironmentKey = some v) :
    fieldErrors env f
      = (match f.GetDefaultValue with
          | some d => parseErrors f.TypeName d f.Name
          | none => []) ++ parseErrors f.TypeName v f.Name ∧
    ((f.GetDefaultValue = none ∨
        ∃ d, f.GetDefaultValue = some d ∧ coerced f.TypeName f.delimiter d ≠ none) →
      (coerced f.TypeName f.delimiter v ≠ none → fieldErrors env f = []) ∧
      (coerced f.TypeName f.delimiter v = none →
        ∃ msg : String, fieldErrors env f = [⟨ErrorLoadInvalidValue, msg⟩])) ∧
    (∀ d, f.GetDefaultValue = some d → coerced f.TypeName f.delimiter d = none →
      ∃ msg : String,
        fieldErrors env f = ⟨ErrorLoadInvalidValue, msg⟩ :: parseErrors f.TypeName v f.Name) := by
  have heq := fieldErrors_parsed_env env f ht v he
  refine ⟨heq, ?_, ?_⟩
  · intro hdef
    have hd0 : (match f.GetDefaultValue with
        | some d => parseErrors f.TypeName d f.Name
        | none => []) = [] := by
      rcases hdef with hd | ⟨d, hd, hv⟩
      · rw [hd]
      · rw [hd]
        exact parseErrors_of_valid _ _ _ _ ht hv
    rw [heq, hd0, List.nil_append]
    exact ⟨fun hv => parseErrors_of_valid _ _ _ _ ht hv,
      fun hv => parseErrors_of_invalid _ _ _ _ ht hv⟩
  · intro d hd hbad
    obtain ⟨msg, hmsg⟩ := parseErrors_of_invalid f.TypeName f.delimiter d f.Name ht hbad
    refine ⟨msg, ?_⟩
    rw [heq, hd]
    simp only [hmsg, List.singleton_append]

/-- C16, amended, at an int field with the default `x` and the environment value
`7`. -/
theorem C16_default_always_parsed_witness :
    isParsedType "int" ∧
    (fun k => if k = "N" then some "7" else none : Environ)
      (StructField.GetEnvironmentKey ⟨"N", "int", [("default", "x")], Value.int 0⟩)
      = some "7" ∧
    fieldErrors (fun k => if k = "N" then some "7" else none)
        ⟨"N", "int", [("default", "x")], Value.int 0⟩
      = [⟨ErrorLoadInvalidValue, "failed to parse 'x' as an int for loading 'N'"⟩] :=
  ⟨by decide, by decide,
    (C16_default_always_parsed (fun k => if k = "N" then some "7" else none)
      ⟨"N", "int", [("default", "x")], Value.int 0⟩ (by decide) "7" (by decide)).1.trans
      (by decide)⟩

/-! ## A turn of the loop does not read the value of the field -/

theorem lookup_revalue (env : Environ) (f : StructField) (v : Value) :
    lookup env { f with Value := v } = lookup env f := rfl

theorem loadStringSlice_revalue (l : Lookup) (f : StructField) :
    ∃ r : Option Value, ∀ (v : Value) (errs : LoadErrors),
      loadStringSlice l errs { f with Value := v }
        = (errs ++ (loadStringSlice l [] f).1,
            match r with
            | none => { f with Value := v }
            | some val => { f with Value := val }) := by
  refine ⟨some (loadStringSlice l [] f).2.Value, ?_⟩
  intro v errs
  unfold loadStringSlice
  cases l.defaultValue <;> cases l.isEnvironmentDefined <;>
    simp [StructField.SetStringSlice, StructField.TagLookup]

theorem loadString_revalue (l : Lookup) (f : StructField) :
    ∃ r : Option Value, ∀ (v : Value) (errs : LoadErrors),
      loadString l errs { f with Value := v }
        = (errs ++ (loadString l [] f).1,
            match r with
            | none => { f with Value := v }
            | some val => { f with Value := val }) := by
  refine ⟨some (loadString l [] f).2.Value, ?_⟩
  intro v errs
  unfold loadString
  cases l.defaultValue <;> cases l.isEnvironmentDefined <;> simp [StructField.SetString]

theorem loadBool_revalue (l : Lookup) (f : StructField) :
    ∃ r : Option Value, ∀ (v : Value) (errs : LoadErrors),
      loadBool l errs { f with Value := v }
        = (errs ++ (loadBool l [] f).1,
            match r with
            | none => { f with Value := v }
            | some val => { f with Value := val }) := by
  refine ⟨some (loadBool l [] f).2.Value, ?_⟩
  intro v errs
  unfold loadBool parseBoolEnvironment
  cases l.defaultValue <;> cases l.isEnvironmentDefined <;>
    simp [StructField.SetBool] <;> split_ifs <;> simp

theorem loadInt_revalue (l : Lookup) (f : StructField) :
    ∃ r : Option Value, ∀ (v : Value) (errs : LoadErrors),
      loadInt l errs { f with Value := v }
        = (errs ++ (loadInt l [] f).1,
            match r with
            | none => { f with Value := v }
            | some val => { f with Value := val }) := by
  refine ⟨some (loadInt l [] f).2.Value, ?_⟩
  intro v errs
  unfold loadInt parseIntEnvironment
  cases l.defaultValue <;> cases l.isEnvironmentDefined <;>
    simp [StructField.SetInt] <;> split_ifs <;> simp

theorem loadStringSlicePointer_revalue (l : Lookup) (f : StructField) :
    ∃ r : Option Value, ∀ (v : Value) (errs : LoadErrors),
      loadStringSlicePointer l errs { f with Value := v }
        = (errs ++ (loadStringSlicePointer l [] f).1,
            match r with
            | none => { f with Value := v }
            | some val => { f with Value := val }) := by
  by_cases hb : l.defaultValue = none ∧ l.isEnvironmentDefined = false
  · refine ⟨none, ?_⟩
    intro v errs
    simp [loadStringSlicePointer, hb]
  · refine ⟨some (loadStringSlicePointer l [] f).2.Value, ?_⟩
    intro v errs
    simp [loadStringSlicePointer, hb, StructField.SetStringSlicePointer,
      StructField.TagLookup]

theorem loadStringPointer_revalue (l : Lookup) (f : StructField) :
    ∃ r : Option Value, ∀ (v : Value) (errs : LoadErrors),
      loadStringPointer l errs { f with Value := v }
        = (errs ++ (loadStringPointer l [] f).1,
            match r with
            | none => { f with Value := v }
            | some val => { f with Value := val }) := by
  by_cases hb : l.defaultValue = none ∧ l.isEnvironmentDefined = false
  · refine ⟨none, ?_⟩
    intro v errs
    simp [loadStringPointer, hb]
  · refine ⟨some (loadStringPointer l [] f).2.Value, ?_⟩
    intro v errs
    simp [loadStringPointer, hb, StructField.SetStringPointer]

theorem loadBoolPointer_revalue (l : Lookup) (f : StructField) :
    ∃ r : Option Value, ∀ (v : Value) (errs : LoadErrors),
      loadBoolPointer l errs { f with Value := v }
        = (errs ++ (loadBoolPointer l [] f).1,
            match r with
            | none => { f with Value := v }
            | some val => { f with Value := val }) := by
  by_cases hb : l.defaultValue = none ∧ l.isEnvironmentDefined = false
  · refine ⟨none, ?_⟩
    intro v errs
    simp [loadBoolPointer, hb]
  · refine ⟨some (loadBoolPointer l [] f).2.Value, ?_⟩
    intro v errs
    unfold loadBoolPointer parseBoolEnvironment
    simp only [hb, if_false]
    cases l.defaultValue <;> cases l.isEnvironmentDefined <;>
      simp [StructField.SetBoolPointer] <;> split_ifs <;> simp

theorem loadIntPointer_revalue (l : Lookup) (f : StructField) :
    ∃ r : Option Value, ∀ (v : Value) (errs : LoadErrors),
      loadIntPointer l errs { f with Value := v }
        = (errs ++ (loadIntPointer l [] f).1,
            match r with
            | none => { f with Value := v }
            | some val => { f with Value := val }) := by
  by_cases hb : l.defaultValue = none ∧ l.isEnvironmentDefined = false
  · refine ⟨none, ?_⟩
    intro v errs
    simp [loadIntPointer, hb]
  · refine ⟨some (loadIntPointer l [] f).2.Value, ?_⟩
    intro v errs
    unfold loadIntPointer parseIntEnvironment
    simp only [hb, if_false]
    cases l.defaultValue <;> cases l.isEnvironmentDefined <;>
      simp [StructField.SetIntPointer] <;> split_ifs <;> simp

theorem loadInvalidType_revalue (l : Lookup) (f : StructField) :
    ∃ r : Option Value, ∀ (v : Value) (errs : LoadErrors),
      loadInvalidType l errs { f with Value := v }
        = (errs ++ (loadInvalidType l [] f).1,
            match r with
            | none => { f with Value := v }
            | some val => { f with Value := val }) := by
  refine ⟨none, ?_⟩
  intro v errs
  simp [loadInvalidType]

theorem loadField_revalue (env : Environ) (f : StructField) :
    ∃ r : Option Value, ∀ (v : Value) (errs : LoadErrors),
      loadField env errs { f with Value := v }
        = (errs ++ fieldErrors env f,
            match r with
            | none => { f with Value := v }
            | some val => { f with Value := val }) := by
  unfold fieldErrors loadField
  simp only [lookup_revalue]
  split_ifs
  · exact loadStringSlice_revalue _ _
  · exact loadStringSlicePointer_revalue _ _
  · exact loadString_revalue _ _
  · exact loadStringPointer_revalue _ _
  · exact loadBool_revalue _ _
  · exact loadBoolPointer_revalue _ _
  · exact loadInt_revalue _ _
  · exact loadIntPointer_revalue _ _
  · exact loadInvalidType_revalue _ _

theorem revalue_self (f : StructField) : ({ f with Value := f.Value } : StructField) = f := rfl

theorem fieldErrors_revalue (env : Environ) (f : StructField) (v : Value) :
    fieldErrors env { f with Value := v } = fieldErrors env f := by
  obtain ⟨r, hr⟩ := loadField_revalue env f
  unfold fieldErrors
  rw [hr v []]
  rfl

theorem fieldErrors_of_descriptor (env : Environ) (f g : StructField)
    (h : g.descriptor = f.descriptor) : fieldErrors env g = fieldErrors env f := by
  have hg : g = { f with Value := g.Value } := by
    cases f with
    | mk n t tg v =>
      cases g with
      | mk n2 t2 tg2 v2 =>
        simp only [StructField.descriptor, Prod.mk.injEq] at h
        obtain ⟨h1, h2, h3⟩ := h
        subst h1; subst h2; subst h3
        rfl
  rw [hg, fieldErrors_revalue]

theorem flatMap_fieldErrors_of_descriptor (env : Environ) (fs gs : List StructField)
    (h : gs.map StructField.descriptor = fs.map StructField.descriptor) :
    gs.flatMap (fieldErrors env) = fs.flatMap (fieldErrors env) := by
  induction fs generalizing gs with
  | nil =>
    have : gs = [] := by simpa using h
    rw [this]
  | cons f fs ih =>
    cases gs with
    | nil => simp at h
    | cons g gs =>
      simp only [List.map_cons, List.cons.injEq] at h
      rw [List.flatMap_cons, List.flatMap_cons, fieldErrors_of_descriptor env f g h.1,
        ih gs h.2]

theorem loadField_idempotent (env : Environ) (f : StructField) :
    fieldResult env (fieldResult env f) = fieldResult env f ∧
      fieldErrors env (fieldResult env f) = fieldErrors env f := by
  obtain ⟨r, hr⟩ := loadField_revalue env f
  cases r with
  | none =>
    have h1 : fieldResult env f = f := congrArg Prod.snd (hr f.Value [])
    rw [h1]
    exact ⟨h1, rfl⟩
  | some val =>
    have h1 : fieldResult env f = { f with Value := val } :=
      congrArg Prod.snd (hr f.Value [])
    rw [h1]
    exact ⟨congrArg Prod.snd (hr val []), fieldErrors_revalue env f val⟩

/-- C20. Under a fixed environment Load is idempotent on a record that passes
the prerequisites: a second call on the record that the first call produced
returns the same error and leaves every field as the first call left it; and
the returned error does not depend on the values that the fields held before
the call: two records with the same field descriptors (names, types, tags) get
the same error. -/
theorem C20_Load_idempotent (env : Environ) (c : Configuration)
    (hp : c.IsPointer = true) (hs : c.IsStruct = true) :
    Load env (Load env c).2 = ((Load env c).1, (Load env c).2) ∧
    (∀ c2 : Configuration, c2.IsPointer = true → c2.IsStruct = true →
      c2.Fields.map StructField.descriptor = c.Fields.map StructField.descriptor →
      (Load env c2).1 = (Load env c).1) ∧
    (∀ f : StructField, ∀ v : Value, ∀ errs : LoadErrors,
      (loadField env errs { f with Value := v }).1 = (loadField env errs f).1) := by
  refine ⟨?_, ?_, ?_⟩
  · have h1 := Load_eq env c hp hs
    have hfs : ((c.Fields.map (fieldResult env)).map (fieldResult env))
        = c.Fields.map (fieldResult env) := by
      rw [List.map_map]
      apply List.map_congr_left
      intro f _
      exact (loadField_idempotent env f).1
    have hes : (c.Fields.map (fieldResult env)).flatMap (fieldErrors env)
        = c.Fields.flatMap (fieldErrors env) := by
      rw [List.flatMap_map]
      congr 1
      funext f
      exact (loadField_idempotent env f).2
    have h2 := Load_eq env ⟨c.IsPointer, c.IsStruct, c.Fields.map (fieldResult env)⟩ hp hs
    simp only [hfs, hes] at h2
    rw [h1]
    exact h2
  · intro c2 hp2 hs2 hdesc
    rw [Load_eq env c hp hs, Load_eq env c2 hp2 hs2,
      flatMap_fieldErrors_of_descriptor env c.Fields c2.Fields hdesc]
  · intro f v errs
    rw [loadField_eq, loadField_eq, fieldErrors_revalue]

/-- C20 at a record with a required field without value, an optional field and a
field with a default: the second call returns what the first returned. -/
theorem C20_Load_idempotent_witness :
    Load (fun _ => none)
      (Load (fun _ => none)
        ⟨true, true, [⟨"A", "[]string", [], Value.stringSlice none⟩,
          ⟨"B", "*int", [], Value.intPtr none⟩,
          ⟨"C", "bool", [("default", "t")], Value.bool false⟩]⟩).2
      = ((Load (fun _ => none)
          ⟨true, true, [⟨"A", "[]string", [], Value.stringSlice none⟩,
            ⟨"B", "*int", [], Value.intPtr none⟩,
            ⟨"C", "bool", [("default", "t")], Value.bool false⟩]⟩).1,
         (Load (fun _ => none)
          ⟨true, true, [⟨"A", "[]string", [], Value.stringSlice none⟩,
            ⟨"B", "*int", [], Value.intPtr none⟩,
            ⟨"C", "bool", [("default", "t")], Value.bool false⟩]⟩).2) :=
  (C20_Load_idempotent (fun _ => none)
    ⟨true, true, [⟨"A", "[]string", [], Value.stringSlice none⟩,
      ⟨"B", "*int", [], Value.intPtr none⟩,
      ⟨"C", "bool", [("default", "t")], Value.bool false⟩]⟩ rfl rfl).1

end GoConfig
